import Mathlib

/-!
# Verification of the neo4j-toolkit query builder core

A shallow embedding of the TypeScript query-builder subtree of
`jhseong7/neo4j-toolkit`, together with proofs about alias validation,
parameter-key randomization, clause assembly order, path-pattern ghost-node
repair, connector derivation, shortest-path rendering and finalization
behaviour.

Conventions used throughout the embedding:
* JavaScript objects (`Neo4jProperties`) become insertion-ordered association
  lists; assigning to an existing key updates the value in place, a new key is
  appended (mirroring JS property-order semantics).
* JavaScript `Set<string>` becomes an insertion-ordered duplicate-free
  `List String`.
* The process-wide random source (`uuid.v4()`, `Math.random()`) is modelled as
  an explicit counter `Nat` threaded through every operation that draws from
  it; each draw yields a distinct printable token.  Code under verification
  never compares tokens, so only freshness matters.
* Thrown `QueryBuilderException`s become `Except String` errors carrying the
  exception message.
-/

set_option autoImplicit false

namespace Neo4jToolkit

/-- JS primitive values that can live in a `Neo4jProperties` map
(`src/types/basic.ts`: `string | number | boolean`, lists, `null`,
`undefined`, and zero-argument functions returning raw query text). -/
inductive NValue where
  | str (s : String)
  | num (n : Int)
  | bool (b : Bool)
  | list (xs : List NValue)
  | null
  | undef
  | raw (s : String)

/-- JS truthiness of an `NValue` (`!v` in the source checks falsiness):
`0`, `""`, `false`, `null` and `undefined` are falsy; arrays and functions
are truthy. -/
def NValue.truthy : NValue → Bool
  | .str s => s ≠ ""
  | .num n => n ≠ 0
  | .bool b => b
  | .list _ => true
  | .null => false
  | .undef => false
  | .raw _ => true

/-- `Neo4jProperties`: an insertion-ordered JS object. -/
abbrev Props := List (String × NValue)

/-- JS property read `o[k]`: `none` models `undefined` for a missing key. -/
def objGet (o : Props) (k : String) : Option NValue :=
  (o.find? (fun p => p.1 = k)).map Prod.snd

/-- JS property read defaulting to `undefined`. -/
def objGetD (o : Props) (k : String) : NValue :=
  (objGet o k).getD NValue.undef

/-- JS property write `o[k] = v`: updates in place if the key exists
(keeping its position), else appends. -/
def objSet (o : Props) (k : String) (v : NValue) : Props :=
  match o with
  | [] => [(k, v)]
  | (k', v') :: rest =>
    if k' = k then (k', v) :: rest else (k', v') :: objSet rest k v

/-- `mergeProperties(properties, newProperties)` from
`src/query-builder/util.ts`: shallow merge, later key wins; `undefined`
source is a no-op. -/
def mergeProperties (target : Props) (source : Option Props) : Props :=
  match source with
  | none => target
  | some s => s.foldl (fun acc p => objSet acc p.1 p.2) target

/-- JS `Set<string>` add: ignore an element already present, else append. -/
def jsSetAdd (s : List String) (a : String) : List String :=
  if a ∈ s then s else s ++ [a]

/-- `new Set(list)` / adding many strings in order. -/
def jsSetOfList (l : List String) : List String :=
  l.foldl jsSetAdd []

/-! ## Character classes and the regex scanners of `util.ts`

The source uses three JavaScript regular expressions; each is embedded as a
left-to-right maximal-munch scanner with the exact same match semantics
(including `\b` word-boundary behaviour, where `$` is *not* a word
character). -/

/-- JS regex word character (`\w` = `[A-Za-z0-9_]`), used by `\b`. -/
def isWordChar (c : Char) : Bool :=
  ('a' ≤ c && c ≤ 'z') || ('A' ≤ c && c ≤ 'Z') || c.isDigit || c = '_'

/-- First character of an alias per `[a-zA-Z_$]`. -/
def isHeadChar (c : Char) : Bool :=
  ('a' ≤ c && c ≤ 'z') || ('A' ≤ c && c ≤ 'Z') || c = '_' || c = '$'

/-- Continuation character of an alias per `[a-zA-Z0-9_$]`. -/
def isIdentChar (c : Char) : Bool :=
  ('a' ≤ c && c ≤ 'z') || ('A' ≤ c && c ≤ 'Z') || c.isDigit || c = '_' || c = '$'

/-- Alphanumeric per `[a-zA-Z0-9]` (placeholder-name characters). -/
def isAlnum (c : Char) : Bool :=
  ('a' ≤ c && c ≤ 'z') || ('A' ≤ c && c ≤ 'Z') || c.isDigit

/-- Fuelled worker for `scanKeys`.  The fuel is an evaluation bound only:
every attempt consumes at least one character, so fuel equal to the input
length (as supplied by `scanKeys`) never runs out. -/
def scanKeysF : Nat → List Char → List String
  | 0, _ => []
  | _ + 1, [] => []
  | fuel + 1, '$' :: rest =>
    let run := rest.takeWhile isAlnum
    if run.isEmpty then scanKeysF fuel rest
    else ("$" ++ String.mk run) :: scanKeysF fuel (rest.drop run.length)
  | fuel + 1, _ :: rest => scanKeysF fuel rest

/-- `statement.match(/\$[a-zA-Z0-9]+/g)`: all `$name` placeholders, in
order, `$` included, empty list for `null`. -/
def scanKeys (cs : List Char) : List String := scanKeysF cs.length cs

/-- A `\b` word boundary holds before the current character `c` given the
preceding character (`none` at the start of the string). -/
def atBoundary (prev : Option Char) (c : Char) : Bool :=
  match prev with
  | none => isWordChar c
  | some p => isWordChar p != isWordChar c

/-- Fuelled worker for `scanDotAliases` (fuel is an evaluation bound, one
unit per match attempt, each of which consumes at least one character). -/
def scanDotAliasesF : Nat → Option Char → List Char → List String
  | 0, _, _ => []
  | _ + 1, _, [] => []
  | fuel + 1, prev, c :: rest =>
    if atBoundary prev c && isHeadChar c then
      let run := rest.takeWhile isIdentChar
      let after := rest.drop run.length
      if after.head? = some '.' then
        String.mk (c :: run) :: scanDotAliasesF fuel (some '.') after.tail
      else scanDotAliasesF fuel (some c) rest
    else scanDotAliasesF fuel (some c) rest

/-- `statement.match(/\b[a-zA-Z_$][a-zA-Z0-9_$]*\./g)` with the trailing
dot stripped: the dot-notation alias scan of `extractAliasFromSet`. -/
def scanDotAliases (prev : Option Char) (cs : List Char) : List String :=
  scanDotAliasesF cs.length prev cs

/-- Fuelled worker for `scanBracketAliases` (fuel is an evaluation bound,
one unit per match attempt). -/
def scanBracketAliasesF : Nat → Option Char → List Char → List String
  | 0, _, _ => []
  | _ + 1, _, [] => []
  | fuel + 1, prev, c :: rest =>
    if atBoundary prev c && isHeadChar c then
      let run := rest.takeWhile isIdentChar
      let after := rest.drop run.length
      if after.head? = some '[' then
        let inner := after.tail.takeWhile (fun ch => !(ch = ']'))
        let after2 := after.tail.drop inner.length
        if inner.isEmpty then scanBracketAliasesF fuel (some c) rest
        else if after2.head? = some ']' then
          String.mk (c :: run) :: scanBracketAliasesF fuel (some ']') after2.tail
        else scanBracketAliasesF fuel (some c) rest
      else scanBracketAliasesF fuel (some c) rest
    else scanBracketAliasesF fuel (some c) rest

/-- `/\b([a-zA-Z_$][a-zA-Z0-9_$]*)\[[^\]]+\]/g`: the bracket-notation alias
scan of `extractAliasFromSet`. -/
def scanBracketAliases (prev : Option Char) (cs : List Char) : List String :=
  scanBracketAliasesF cs.length prev cs

/-- `extractAliasFromSet(statement)` (named `extractAliases` in
`src/query-builder/util.ts` lines 79–102): dot-notation aliases first, then
bracket-notation ones, deduplicated preserving first-occurrence order. -/
def extractAliasFromSet (statement : String) : List String :=
  (scanDotAliases none statement.toList
      ++ scanBracketAliases none statement.toList).foldl jsSetAdd []

/-- One fresh token from the modelled process-wide random source (stands for
the 10 hex characters of `uuid.v4()` drawn by `randomizeKey`). -/
def genTok (g : Nat) : String := "r" ++ Nat.repr g

/-- `randomizeKey(key)` from `util.ts`: appends `_<fresh token>`. -/
def randomizeKey (key : String) (g : Nat) : String :=
  key ++ "_" ++ genTok g

/-- First-occurrence literal substring replacement, the semantics of JS
`statement.replace(searchString, replacement)` for a string pattern. -/
def replaceFirstAux (seen : List Char) (pat repl : String) :
    List Char → String
  | [] => String.mk seen.reverse
  | c :: rest =>
    if pat.toList.isPrefixOf (c :: rest) then
      String.mk seen.reverse ++ repl ++ String.mk ((c :: rest).drop pat.length)
    else replaceFirstAux (c :: seen) pat repl rest

/-- JS `s.replace(pat, repl)` with a string pattern (first occurrence only;
the source's replacement strings never contain the special `$`-patterns
that JS would expand). -/
def replaceFirst (s pat repl : String) : String :=
  replaceFirstAux [] pat repl s.toList

/-- `randomizeParameterKeys(statement, parameters)` from
`src/query-builder/util.ts` lines 121–162, faithfully including the loop
body `newStatement = statement.replace(key, newKey)` which rebuilds
`newStatement` from the *original* statement on every iteration. -/
def randomizeParameterKeys (statement : String) (parameters : Option Props)
    (g : Nat) : String × Option Props × Nat :=
  match parameters with
  | none => (statement, none, g)
  | some ps =>
    let keys := scanKeys statement.toList
    if keys.isEmpty then (statement, some ps, g)
    else
      let res := keys.foldl
        (fun (acc : String × Props × Nat) key =>
          let newKey := randomizeKey key acc.2.2
          let newStatement := replaceFirst statement key newKey
          (newStatement,
            objSet acc.2.1 (newKey.drop 1) (objGetD ps (key.drop 1)),
            acc.2.2 + 1))
        ("", [], g)
      (res.1, some res.2.1, res.2.2)

/-! ## `WhereClauseBuilder` (`src/query-builder/clause/where-clause-builder.ts`)

The boolean-expression tree builder.  Statements, `AND`/`OR` connectives and
bracketed sub-trees live in one flat ordered list; brackets own a nested
list. -/

/-- A node of the WHERE clause structure (`WhereNode` in the source). -/
inductive WhereNode where
  | stmt (statement : String) (parameters : Option Props)
  | and
  | or
  | bracket (subNodes : List WhereNode)

/-- Mutable state of a `WhereClauseBuilder`. -/
structure WhereClauseBuilder where
  aliasSet : List String := []
  parameters : Props := []
  whereNodeList : List WhereNode := []

/-- Argument accepted by `add`/`and`/`or`: either a raw statement with an
optional property map, or a builder callback producing a bracketed
sub-expression (the callback is modelled by the list of calls it makes on
the fresh sub-builder). -/
inductive WhereArg where
  | stmt (statement : String) (parameters : Option Props)
  | sub (ops : List (Bool × Bool × WhereArg))

/-- One call on a `WhereClauseBuilder`.  The two booleans select the method:
`(true, _)` is `add`, `(false, true)` is `and`, `(false, false)` is `or`. -/
abbrev WhereOp := Bool × Bool × WhereArg

/-- `_checkParameterValid(statement, parameters)`: `false` when the
statement has no `$key` placeholders at all, and `false` when any
placeholder's map entry is missing or falsy. -/
def checkParameterValid (statement : String) (parameters : Props) : Bool :=
  let keys := scanKeys statement.toList
  if keys.isEmpty then false
  else keys.all (fun key => (objGetD parameters (key.drop 1)).truthy)

/-- Exception message of `_createSingleStatement`'s parameter check. -/
def parameterErrMsg : String := "Parameters are not valid in the where clause"

/-- Exception message thrown by `_checkAliasValid` for a known-bad alias. -/
def aliasErrMsg (a : String) : String :=
  "The alias " ++ a ++
    " is not valid. Check if the alias is in the match, create, with, merge or optional match clause"

/-- Exception message thrown by `_buildNodes` when `_checkAliasValid`
returns `false` (zero or several distinct aliases in one statement). -/
def statementAliasErrMsg : String :=
  "The alias in the statement is not valid. Check if the alias is in the match, create, with, merge or optional match clause"

/-- `_checkAliasValid(statement)` as used by `_buildNodes`: `Except` result
combining the boolean result with the exception it may throw. -/
def checkAliasValid (aliasSet : List String) (statement : String) :
    Except String Bool :=
  let aliases := extractAliasFromSet statement
  if aliases.length ≠ 1 then .ok false
  else match aliases.find? (fun a => decide (¬ a ∈ aliasSet)) with
    | some bad => .error (aliasErrMsg bad)
    | none => .ok true

/-- `_createSingleStatement(statement, parameters)`: eager parameter check
(only when a map is given), then placeholder randomization — the source
passes `parameters ?? {}`, so a missing map is randomized as the empty
map — then merge of the randomized parameters into the builder's bag. -/
def createSingleStatement (b : WhereClauseBuilder) (statement : String)
    (parameters : Option Props) (g : Nat) :
    Except String (WhereNode × WhereClauseBuilder × Nat) :=
  match parameters with
  | some ps =>
    if !checkParameterValid statement ps then .error parameterErrMsg
    else
      let r := randomizeParameterKeys statement (some ps) g
      .ok (.stmt r.1 r.2.1,
        { b with parameters := mergeProperties b.parameters (some (r.2.1.getD [])) },
        r.2.2)
  | none =>
    let r := randomizeParameterKeys statement (some []) g
    .ok (.stmt r.1 r.2.1,
      { b with parameters := mergeProperties b.parameters (some (r.2.1.getD [])) },
      r.2.2)

mutual

/-- `_commonNodeHandler(arg1, arg2)`: a direct statement becomes a statement
node; a builder callback runs on a fresh builder seeded with the current
alias set, whose parameters are merged back and whose node list becomes a
bracket node. -/
def commonNodeHandler (b : WhereClauseBuilder) (arg : WhereArg) (g : Nat) :
    Except String (WhereNode × WhereClauseBuilder × Nat) :=
  match arg with
  | .stmt statement parameters => createSingleStatement b statement parameters g
  | .sub ops => do
    let r ← applyWhereOps { aliasSet := jsSetOfList b.aliasSet } ops g
    .ok (.bracket r.1.whereNodeList,
      { b with parameters := mergeProperties b.parameters (some r.1.parameters) },
      r.2)

/-- One `add`/`and`/`or` call (`add` rejects a non-empty node list; `and`
and `or` push their connective before the new node). -/
def applyWhereOp (b : WhereClauseBuilder) (op : WhereOp) (g : Nat) :
    Except String (WhereClauseBuilder × Nat) :=
  match op with
  | (true, _, arg) =>
    if b.whereNodeList.length ≠ 0 then
      .error "The add function must only be called once. Did you mean to use the and/or function?"
    else do
      let r ← commonNodeHandler b arg g
      .ok ({ r.2.1 with whereNodeList := r.2.1.whereNodeList ++ [r.1] }, r.2.2)
  | (false, isAnd, arg) => do
    let r ← commonNodeHandler b arg g
    let conn : WhereNode := if isAnd then .and else .or
    .ok ({ r.2.1 with whereNodeList := r.2.1.whereNodeList ++ [conn, r.1] },
      r.2.2)

/-- Run a sequence of builder calls (the body of a builder callback). -/
def applyWhereOps (b : WhereClauseBuilder) (ops : List WhereOp) (g : Nat) :
    Except String (WhereClauseBuilder × Nat) :=
  match ops with
  | [] => .ok (b, g)
  | op :: rest => do
    let r ← applyWhereOp b op g
    applyWhereOps r.1 rest r.2

end

/-- `WhereClauseBuilder.add(statement, parameters?)`. -/
def WhereClauseBuilder.add (b : WhereClauseBuilder) (statement : String)
    (parameters : Option Props := none) (g : Nat := 0) :
    Except String (WhereClauseBuilder × Nat) :=
  applyWhereOp b (true, true, .stmt statement parameters) g

/-- `WhereClauseBuilder.and(statement, parameters?)`. -/
def WhereClauseBuilder.and (b : WhereClauseBuilder) (statement : String)
    (parameters : Option Props := none) (g : Nat := 0) :
    Except String (WhereClauseBuilder × Nat) :=
  applyWhereOp b (false, true, .stmt statement parameters) g

/-- `WhereClauseBuilder.or(statement, parameters?)`. -/
def WhereClauseBuilder.or (b : WhereClauseBuilder) (statement : String)
    (parameters : Option Props := none) (g : Nat := 0) :
    Except String (WhereClauseBuilder × Nat) :=
  applyWhereOp b (false, false, .stmt statement parameters) g

/-- `setAliasList(aliases)`: replaces the whole alias scope. -/
def WhereClauseBuilder.setAliasList (b : WhereClauseBuilder)
    (aliases : List String) : WhereClauseBuilder :=
  { b with aliasSet := jsSetOfList aliases }

mutual

/-- Size of a WHERE node (used as the evaluation bound of `buildNodes`). -/
def whereNodeSize : WhereNode → Nat
  | .stmt _ _ => 1
  | .and => 1
  | .or => 1
  | .bracket subNodes => whereNodeListSize subNodes + 1

/-- Total size of a WHERE node list. -/
def whereNodeListSize : List WhereNode → Nat
  | [] => 0
  | n :: rest => whereNodeSize n + whereNodeListSize rest

end

/-- Fuelled worker for `buildNodes`: the fuel (one unit per processed node,
bounded by the total node count supplied by `buildNodes`) is an evaluation
bound only and never runs out. -/
def buildNodesF (aliasSet : List String) :
    Nat → List WhereNode → List String → Props → Except String (String × Props)
  | _, [], currentQueryList, currentParameters =>
    .ok (String.intercalate " " currentQueryList, currentParameters)
  | 0, _ :: _, currentQueryList, currentParameters =>
    .ok (String.intercalate " " currentQueryList, currentParameters)
  | fuel + 1, .stmt statement parameters :: rest, currentQueryList,
      currentParameters => do
    let valid ← checkAliasValid aliasSet statement
    if !valid then .error statementAliasErrMsg
    else
      buildNodesF aliasSet fuel rest (currentQueryList ++ [statement])
        (mergeProperties currentParameters parameters)
  | fuel + 1, .and :: rest, currentQueryList, currentParameters =>
    buildNodesF aliasSet fuel rest (currentQueryList ++ ["AND"])
      currentParameters
  | fuel + 1, .or :: rest, currentQueryList, currentParameters =>
    buildNodesF aliasSet fuel rest (currentQueryList ++ ["OR"])
      currentParameters
  | fuel + 1, .bracket subNodes :: rest, currentQueryList,
      currentParameters => do
    let r ← buildNodesF aliasSet fuel subNodes [] []
    buildNodesF aliasSet fuel rest (currentQueryList ++ ["( " ++ r.1 ++ " )"])
      (mergeProperties currentParameters (some r.2))

/-- `_buildNodes(nodes, currentQueryList, currentParameters)`: the
depth-first flatten pass; statement nodes are alias-validated here, against
the builder's current alias scope. -/
def buildNodes (aliasSet : List String) (nodes : List WhereNode)
    (currentQueryList : List String) (currentParameters : Props) :
    Except String (String × Props) :=
  buildNodesF aliasSet (whereNodeListSize nodes) nodes currentQueryList
    currentParameters

/-- `WhereClauseBuilder.toParameterizedQuery()`: empty builder yields an
empty query, otherwise the flattened tree prefixed with `WHERE `. -/
def WhereClauseBuilder.toParameterizedQuery (b : WhereClauseBuilder) :
    Except String (String × Props) :=
  if b.whereNodeList.length = 0 then .ok ("", [])
  else do
    let r ← buildNodes b.aliasSet b.whereNodeList [] b.parameters
    .ok ("WHERE " ++ r.1, r.2)

/-! ## Pattern fragment builders

`RelationPatternBuilder` is `src/query-builder/component/relation-pattern-builder.ts`
(with the shared property rendering from `component/base-builder.ts`).
`alias` is a reserved word in Lean, so the `_alias` field is called
`aliasName` throughout; the empty string models an unset alias. -/

/-- `CommonBuilder._getParameterizedProperties()` from
`component/base-builder.ts`: renders ` {k: $<aliasKey>_k, …}` where
`aliasKey` is the alias (or `"r"` when unset) extended with a fresh random
suffix drawn from `Math.random()` — modelled by one draw from the token
supply. -/
def getParameterizedProperties (aliasName : String) (properties : Props)
    (g : Nat) : String × Props × Nat :=
  if properties.isEmpty then ("", [], g)
  else
    let aliasKey := (if aliasName = "" then "r" else aliasName) ++ genTok g
    let parameters := properties.foldl
      (fun acc p => objSet acc (aliasKey ++ "_" ++ p.1) p.2) []
    (" \x7b" ++ String.intercalate ", "
        (properties.map (fun p => p.1 ++ ": $" ++ aliasKey ++ "_" ++ p.1)) ++
      "\x7d",
      parameters, g + 1)

/-- Construction state of a `NodePatternBuilder`
(`component/node-builder.ts`, whose implementation survives past the doc
separator inside `component/relation-builder.spec.ts`): an optional alias
(`_getAlias()` is `this._alias ?? ""`, so the empty string models unset),
the insertion-ordered duplicate-free label `Set`, and the raw property
bag. -/
structure NodePatternBuilder where
  aliasName : String := ""
  labels : List String := []
  properties : Props := []

/-- `NodePatternBuilder.toParameterizedQuery()`: `_checkValid()` always
succeeds (every check in it is commented out), `_getLabels()` renders
`:L1:L2…` (or nothing), and the result is
`{aliasSet: new Set([_getAlias()]), query: "(alias:labels {props})",
parameters}` plus the advanced token supply. -/
def NodePatternBuilder.toParameterizedQuery (n : NodePatternBuilder)
    (g : Nat) : List String × String × Props × Nat :=
  let lbl := (jsSetOfList n.labels).foldl (fun acc l => acc ++ ":" ++ l) ""
  let p := getParameterizedProperties n.aliasName n.properties g
  ([n.aliasName], "(" ++ n.aliasName ++ lbl ++ p.1 ++ ")", p.2.1, p.2.2)

/-- Construction state of a `RelationPatternBuilder` (`part_009`): at most
one type label. -/
structure RelationPatternBuilder where
  aliasName : String := ""
  label : String := ""
  properties : Props := []

/-- `RelationPatternBuilder.toParameterizedQuery()`:
`[alias:TYPE {…}]` with `aliasSet = new Set([this._getAlias()])`. -/
def RelationPatternBuilder.toParameterizedQuery (r : RelationPatternBuilder)
    (g : Nat) : List String × String × Props × Nat :=
  let lbl := if r.label = "" then "" else ":" ++ r.label
  let p := getParameterizedProperties r.aliasName r.properties g
  ([r.aliasName], "[" ++ r.aliasName ++ lbl ++ p.1 ++ "]", p.2.1, p.2.2)

/-! ## `PathPatternBuilder` (`part_002`, the snapshot with shortest-path
support; the linked `previous`/`next` element chain is modelled as the list
of elements in chain order, `_startElement`/`_lastElement` being its
head/last and `previous` existing exactly for non-head elements) -/

/-- The `nextType` connector kinds of a graph element. -/
inductive ConnType where
  | toNode
  | fromNode
  | toRelationship
  | fromRelationship
  | unDirectedNode
  deriving Repr, DecidableEq

/-- The fragment builder owned by a chain element. -/
inductive PFrag where
  | node (n : NodePatternBuilder)
  | rel (r : RelationPatternBuilder)

/-- Whether a fragment is a relationship (`element.type === "relationship"`). -/
def PFrag.isRel : PFrag → Bool
  | .node _ => false
  | .rel _ => true

/-- One element of the path-pattern chain. -/
structure PElem where
  frag : PFrag
  nextType : Option ConnType := none

/-- The alias bound by an element (empty string when anonymous). -/
def PElem.aliasName (e : PElem) : String :=
  match e.frag with
  | .node n => n.aliasName
  | .rel r => r.aliasName

/-- `builder.toParameterizedQuery()` for a chain element. -/
def PElem.render (e : PElem) (g : Nat) : List String × String × Props × Nat :=
  match e.frag with
  | .node n => n.toParameterizedQuery g
  | .rel r => r.toParameterizedQuery g

/-- `getConnectionSymbol(element)` from `part_002` lines 55–89. -/
def getConnectionSymbol (e : PElem) : String :=
  match e.frag, e.nextType with
  | .node _, some .toNode => "-->"
  | .node _, some .fromNode => "<--"
  | .node _, some .toRelationship => "-"
  | .node _, some .fromRelationship => "<-"
  | .node _, some .unDirectedNode => "--"
  | .node _, none => ""
  | .rel _, some .toNode => "->"
  | .rel _, some .fromNode => "-"
  | .rel _, _ => ""

/-- `ShortestPathOptions` (`alias` field renamed `aliasName`). -/
structure ShortestPathOptions where
  aliasName : String
  length : Option Int := none
  isGroup : Bool := false
  isAll : Bool := false

/-- Mutable state of a `PathPatternBuilder`: the element chain, the element
counter (an integer — the finalize loop drives it below zero), and the
optional shortest-path annotation. -/
structure PathPatternBuilder where
  elements : List PElem := []
  elementCnt : Int := 0
  shortestPathOptions : Option ShortestPathOptions := none

/-- Message of `StartNodeNotSetException`. -/
def startNotSetMsg : String :=
  "Cannot connect node to nothing. Add a start node or relationship first. Use setNode or setRelationship"

/-- Set the `nextType` of the chain's last element
(`this._lastElement.nextType = …`). -/
def setLastNextType (es : List PElem) (t : ConnType) : List PElem :=
  match es with
  | [] => []
  | [e] => [{ e with nextType := some t }]
  | e :: rest => e :: setLastNextType rest t

/-- `PathPatternBuilder.setNode(node)`. -/
def PathPatternBuilder.setNode (b : PathPatternBuilder)
    (n : NodePatternBuilder) : Except String PathPatternBuilder :=
  if !b.elements.isEmpty then .error "Cannot add multiple start elements."
  else .ok { b with elements := [⟨.node n, none⟩],
                    elementCnt := b.elementCnt + 1 }

/-- `PathPatternBuilder.setRelationship(relationship)`. -/
def PathPatternBuilder.setRelationship (b : PathPatternBuilder)
    (r : RelationPatternBuilder) : Except String PathPatternBuilder :=
  if !b.elements.isEmpty then .error "Cannot add multiple start elements."
  else .ok { b with elements := [⟨.rel r, none⟩],
                    elementCnt := b.elementCnt + 1 }

/-- `PathPatternBuilder.toRelationship(relationship)`: requires a last
element that is a node, connects it with `toRelationship`. -/
def PathPatternBuilder.toRelationship (b : PathPatternBuilder)
    (r : RelationPatternBuilder) : Except String PathPatternBuilder :=
  match b.elements.getLast? with
  | none => .error "Cannot connect relationship to nothing. Add a node first"
  | some last =>
    if last.frag.isRel then
      .error "Cannot connect a relationship to a relationship"
    else
      .ok { b with
        elements := setLastNextType b.elements .toRelationship ++ [⟨.rel r, none⟩],
        elementCnt := b.elementCnt + 1 }

/-- `PathPatternBuilder.fromRelationship(relationship)` (the source has no
relationship-to-relationship guard here). -/
def PathPatternBuilder.fromRelationship (b : PathPatternBuilder)
    (r : RelationPatternBuilder) : Except String PathPatternBuilder :=
  match b.elements.getLast? with
  | none => .error "Cannot connect relationship to nothing. Add a node first"
  | some _ =>
    .ok { b with
      elements := setLastNextType b.elements .fromRelationship ++ [⟨.rel r, none⟩],
      elementCnt := b.elementCnt + 1 }

/-- Ghost-start insertion shared by `toNode`/`fromNode`: when the last
element is a relationship without a `previous` (i.e. the chain is a single
relationship), prepend an anonymous node connected by `conn`. -/
def ghostStart (b : PathPatternBuilder) (conn : ConnType) :
    PathPatternBuilder :=
  match b.elements with
  | [e] =>
    if e.frag.isRel then
      { b with elements := [⟨.node {}, some conn⟩, e],
               elementCnt := b.elementCnt + 1 }
    else b
  | _ => b

/-- `PathPatternBuilder.toNode(node)`. -/
def PathPatternBuilder.toNode (b : PathPatternBuilder)
    (n : NodePatternBuilder) : Except String PathPatternBuilder :=
  if b.elements.isEmpty then .error startNotSetMsg
  else
    let b := ghostStart b .toRelationship
    .ok { b with
      elements := setLastNextType b.elements .toNode ++ [⟨.node n, none⟩],
      elementCnt := b.elementCnt + 1 }

/-- `PathPatternBuilder.fromNode(node)`. -/
def PathPatternBuilder.fromNode (b : PathPatternBuilder)
    (n : NodePatternBuilder) : Except String PathPatternBuilder :=
  if b.elements.isEmpty then .error startNotSetMsg
  else
    let b := ghostStart b .fromRelationship
    .ok { b with
      elements := setLastNextType b.elements .fromNode ++ [⟨.node n, none⟩],
      elementCnt := b.elementCnt + 1 }

/-- `PathPatternBuilder.addNode(node)`: undirected connection, forbidden
after a relationship. -/
def PathPatternBuilder.addNode (b : PathPatternBuilder)
    (n : NodePatternBuilder) : Except String PathPatternBuilder :=
  if b.elements.isEmpty then .error startNotSetMsg
  else if (b.elements.getLast?.map (fun e => e.frag.isRel)).getD false then
    .error "Cannot connect a node to a relationship without a direction. This results in a []--() type of query"
  else
    .ok { b with
      elements := setLastNextType b.elements .unDirectedNode ++ [⟨.node n, none⟩],
      elementCnt := b.elementCnt + 1 }

/-- `PathPatternBuilder.shortestPath(option)`: validates a given length is
positive at call time, then stores the options. -/
def PathPatternBuilder.shortestPath (b : PathPatternBuilder)
    (option : ShortestPathOptions) : Except String PathPatternBuilder :=
  match option.length with
  | some l =>
    if l ≤ 0 then
      .error "The length of the shortest path must be greater than 0"
    else .ok { b with shortestPathOptions := some option }
  | none => .ok { b with shortestPathOptions := some option }

/-- Exception message shared by `_mergeAliasSet` (with `throwOnConflict`)
and `_checkAliasConflict` in `part_002`. -/
def aliasConflictMsg (a : String) : String :=
  "The alias " ++ a ++ " is already in the set of aliases. Aliases must be unique"

/-- `PathPatternBuilder._mergeAliasSet(targetSet, sourceSet,
throwOnConflict)`: skips empty aliases; a duplicate either throws or is
skipped. -/
def ppMergeAliasSet (target source : List String) (throwOnConflict : Bool) :
    Except String (List String) :=
  source.foldlM
    (fun acc a =>
      if a = "" then .ok acc
      else if a ∈ acc then
        if throwOnConflict then .error (aliasConflictMsg a) else .ok acc
      else .ok (acc ++ [a]))
    target

/-- `PathPatternBuilder._checkAliasConflict(validationSet, testSet)`. -/
def ppCheckAliasConflict (validationSet testSet : List String) :
    Except String Unit :=
  match testSet.find? (fun a => decide (a ∈ validationSet)) with
  | some a => .error (aliasConflictMsg a)
  | none => .ok ()

/-- `"Cannot build an empty query…"` message of the finalize pass. -/
def emptyQueryMsg : String :=
  "Cannot build an empty query. Add at least one node or relationship"

/-- Zero-alias failure message of the finalize pass. -/
def noAliasMsg : String := "At least one alias must be provided in the query"

/-- Warning for the single-relationship ghost repair. -/
def soleRelWarn : String :=
  "Only one element is present. Adding a ghost node to the start and end"

/-- Warning for the trailing-relationship ghost repair. -/
def danglingRelWarn : String :=
  "Last element is a relationship. Adding an empty node to the end"

/-- The ghost-node repair prologue of
`PathPatternBuilder.toParameterizedQuery` (`part_002` lines 524–560),
returning the repaired builder and the warnings it printed. -/
def ppRepair (b : PathPatternBuilder) :
    Except String (PathPatternBuilder × List String) :=
  match b.elements.getLast? with
  | none => .ok (b, [])
  | some last =>
    if last.frag.isRel then
      if b.elementCnt = 1 then
        (({ b with
              elements := ⟨.node {}, some .toRelationship⟩ :: b.elements,
              elementCnt := b.elementCnt + 1 } :
            PathPatternBuilder).toNode {}).map
          (fun b2 => (b2, [soleRelWarn]))
      else
        match (b.elements.dropLast.getLast?).bind (fun e => e.nextType) with
        | some .fromRelationship =>
          (b.fromNode {}).map (fun b2 => (b2, [danglingRelWarn]))
        | some .toRelationship =>
          (b.toNode {}).map (fun b2 => (b2, [danglingRelWarn]))
        | _ => .error "Unknown connection type"
    else .ok (b, [])

/-- Accumulator of the finalize traversal loop. -/
structure PPLoopAcc where
  nodeAliasSet : List String := []
  relAliasSet : List String := []
  query : String := ""
  parameters : Props := []

/-- One iteration body of the finalize loop: render the element, register
its alias in the node or relationship alias set (checking cross-kind
conflicts), and append fragment text plus connection symbol. -/
def ppStep (acc : PPLoopAcc) (e : PElem) (g : Nat) :
    Except String (PPLoopAcc × Nat) := do
  let r := e.render g
  let acc ←
    if e.frag.isRel then do
      let relSet ← ppMergeAliasSet acc.relAliasSet r.1 false
      ppCheckAliasConflict acc.nodeAliasSet r.1
      pure { acc with relAliasSet := relSet }
    else do
      let nodeSet ← ppMergeAliasSet acc.nodeAliasSet r.1 false
      ppCheckAliasConflict acc.relAliasSet r.1
      pure { acc with nodeAliasSet := nodeSet }
  .ok ({ acc with
          query := acc.query ++ r.2.1 ++ getConnectionSymbol e,
          parameters := mergeProperties acc.parameters (some r.2.2.1) },
    r.2.2.2)

/-- The `while (this._elementCnt-- > 0)` traversal (`part_002` lines
574–618): visits one chain element per iteration while the counter is
positive; the returned integer is the counter's final (post-decrement)
value. -/
def ppLoop : List PElem → Int → PPLoopAcc → Nat →
    Except String (PPLoopAcc × Int × Nat)
  | [], cnt, acc, g =>
    if 0 < cnt then .error emptyQueryMsg else .ok (acc, cnt - 1, g)
  | e :: rest, cnt, acc, g =>
    if 0 < cnt then do
      let r ← ppStep acc e g
      ppLoop rest (cnt - 1) r.1 r.2
    else .ok (acc, cnt - 1, g)

/-- Result of finalizing a path pattern: the bound aliases, the pattern
text, the collected parameters, and the warnings printed along the way. -/
structure PathPatternResult where
  aliases : List String
  query : String
  parameters : Props
  warnings : List String

/-- The shortest-path epilogue of the finalize pass (`part_002` lines
633–662): enforce alias uniqueness against the pattern's aliases, then
prefix the rendered text.  Note the length is only emitted in the
non-`isAll` branch. -/
def ppShortestPathWrap (o : ShortestPathOptions) (combined : List String)
    (query : String) : Except String (List String × String) := do
  let combined ← ppMergeAliasSet combined [o.aliasName] true
  let sp :=
    if o.isAll then o.aliasName ++ " = ALL SHORTEST"
    else
      o.aliasName ++ " = SHORTEST" ++
        (match o.length with
          | some l => if l ≠ 0 ∧ 0 < l then " " ++ toString l else ""
          | none => "")
  let sp := if o.isGroup then sp ++ " GROUPS" else sp
  .ok (combined, sp ++ " " ++ query)

/-- The finalize pass up to (and including) the zero-alias check: ghost
repair, traversal, combined alias set.  The result's `query` is the plain
pattern text before any shortest-path prefix. -/
def ppFinalizeCore (b : PathPatternBuilder) (g : Nat) :
    Except String (PathPatternResult × PathPatternBuilder × Nat) :=
  if b.elements.isEmpty then .error emptyQueryMsg
  else do
    let rp ← ppRepair b
    let b1 := rp.1
    let r ← ppLoop b1.elements b1.elementCnt {} g
    let acc := r.1
    if acc.nodeAliasSet.isEmpty && acc.relAliasSet.isEmpty then
      .error noAliasMsg
    else
      .ok ({ aliases := jsSetOfList (acc.nodeAliasSet ++ acc.relAliasSet),
             query := acc.query, parameters := acc.parameters,
             warnings := rp.2 },
        { b1 with elementCnt := r.2.1 }, r.2.2)

/-- `PathPatternBuilder.toParameterizedQuery()` (`part_002` lines 514–669):
ghost repair, traversal, zero-alias check, shortest-path wrap.  Returns the
result together with the mutated builder state and the advanced token
supply. -/
def PathPatternBuilder.toParameterizedQuery (b : PathPatternBuilder)
    (g : Nat) :
    Except String (PathPatternResult × PathPatternBuilder × Nat) := do
  let r ← ppFinalizeCore b g
  match b.shortestPathOptions with
  | none => .ok r
  | some o => do
    let w ← ppShortestPathWrap o r.1.aliases r.1.query
    .ok ({ r.1 with aliases := w.1, query := w.2 }, r.2.1, r.2.2)

/-! ## Dependent clause builders: ORDER BY and RETURN -/

/-- `OrderByClauseBuilder` (`part_005`, snapshot with `setAliasList`). -/
structure OrderByClauseBuilder where
  orderByStatements : List String := []
  aliasSet : List String := []

/-- `OrderByClauseBuilder.add(statement, direction)`: direction must be the
literal `ASC` or `DESC`. -/
def OrderByClauseBuilder.add (b : OrderByClauseBuilder) (statement : String)
    (direction : String := "ASC") : Except String OrderByClauseBuilder :=
  if direction ≠ "ASC" ∧ direction ≠ "DESC" then
    .error "The direction must be either 'ASC' or 'DESC'"
  else
    .ok { b with orderByStatements :=
            b.orderByStatements ++ [statement ++ " " ++ direction] }

/-- `OrderByClauseBuilder.setAliasList(aliases)`. -/
def OrderByClauseBuilder.setAliasList (b : OrderByClauseBuilder)
    (aliases : List String) : OrderByClauseBuilder :=
  { b with aliasSet := jsSetOfList aliases }

/-- `OrderByClauseBuilder._checkAlias(statement)`: every extracted alias
must be in scope. -/
def orderByCheckAlias (aliasSet : List String) (statement : String) : Bool :=
  (extractAliasFromSet statement).all (fun a => decide (a ∈ aliasSet))

/-- `OrderByClauseBuilder.toParameterizedQuery()`: alias validation happens
here, on build. -/
def OrderByClauseBuilder.toParameterizedQuery (b : OrderByClauseBuilder) :
    Except String (String × Props) :=
  if b.orderByStatements.isEmpty then .ok ("", [])
  else
    match b.orderByStatements.find?
        (fun st => !orderByCheckAlias b.aliasSet st) with
    | some st =>
      .error ("The alias is not defined in the query. Please provide an alias included in the previous statements: "
        ++ st)
    | none =>
      .ok ("ORDER BY " ++ String.intercalate ", " b.orderByStatements, [])

/-- `ReturnClauseBuilder` (`clause/return-clause-builder.ts`). -/
structure ReturnClauseBuilder where
  returnStatements : List String := []
  aliasSet : List String := []

/-- `ReturnClauseBuilder.add(statement, alias?)`: `*` is passed through,
otherwise an optional ` AS alias` suffix is attached. -/
def ReturnClauseBuilder.add (b : ReturnClauseBuilder) (statement : String)
    (a : Option String := none) : ReturnClauseBuilder :=
  if statement = "*" then
    { b with returnStatements := b.returnStatements ++ [statement] }
  else
    match a with
    | some al =>
      if al ≠ "" then
        { b with returnStatements := b.returnStatements ++ [statement ++ " AS " ++ al] }
      else { b with returnStatements := b.returnStatements ++ [statement] }
    | none => { b with returnStatements := b.returnStatements ++ [statement] }

/-- `ReturnClauseBuilder.setAliasList(aliases)`. -/
def ReturnClauseBuilder.setAliasList (b : ReturnClauseBuilder)
    (aliases : List String) : ReturnClauseBuilder :=
  { b with aliasSet := jsSetOfList aliases }

/-- `ReturnClauseBuilder.toParameterizedQuery()`. -/
def ReturnClauseBuilder.toParameterizedQuery (b : ReturnClauseBuilder) :
    Except String (String × Props) :=
  if b.returnStatements.isEmpty then .ok ("", [])
  else
    match b.returnStatements.find?
        (fun st => !orderByCheckAlias b.aliasSet st) with
    | some _ => .error statementAliasErrMsg
    | none =>
      .ok ("RETURN " ++ String.intercalate ", " b.returnStatements, [])

/-! ## Selective clause builders (MATCH / OPTIONAL MATCH / CREATE / MERGE)

`PathPatternCommonClauseBuilder` from `clause/select-clause-builder.ts`
(the implementation survives past the doc separator inside
`clause/select-clause-builder.spec.ts`): a clause keyword (`_queryPrefix`)
and the ordered `pathPatternBuilders` list.  The raw-string pattern arm of
`addPathPattern` is not embedded: it calls `extractAliasFromPath`, whose
implementation is genuinely absent from the sources (only its tests
remain), and no claim exercises string patterns. -/
structure PathPatternCommonClauseBuilder where
  keyword : String
  patterns : List PathPatternBuilder := []

/-- `addPathPattern(builder)` for an already-built pattern. -/
def PathPatternCommonClauseBuilder.addPathPattern
    (c : PathPatternCommonClauseBuilder) (p : PathPatternBuilder) :
    PathPatternCommonClauseBuilder :=
  { c with patterns := c.patterns ++ [p] }

/-- `PathPatternCommonClauseBuilder._mergeAliasSet(targetSet, sourceSet)`:
a plain permissive union — the duplicate-alias throw in its body is
commented out in the source (“the same alias can be used multiple times in
the same query, so this check is not needed”). -/
def clauseMergeAliasSet (targetSet sourceSet : List String) : List String :=
  sourceSet.foldl jsSetAdd targetSet

/-- `PathPatternCommonClauseBuilder.toParameterizedQuery()`: finalize every
pattern in order, union the alias sets permissively, join the rendered
patterns with `, ` after the keyword (empty query when no patterns), and
merge the parameter bags. -/
def PathPatternCommonClauseBuilder.toParameterizedQuery
    (c : PathPatternCommonClauseBuilder) (g : Nat) :
    Except String (List String × String × Props × Nat) := do
  if c.patterns.isEmpty then .ok ([], "", [], g)
  else
    let r ← c.patterns.foldlM
      (fun (acc : List String × List String × Props × Nat) p => do
        let r ← p.toParameterizedQuery acc.2.2.2
        .ok (clauseMergeAliasSet acc.1 r.1.aliases, acc.2.1 ++ [r.1.query],
          mergeProperties acc.2.2.1 (some r.1.parameters), r.2.2))
      ([], [], [], g)
    .ok (r.1, c.keyword ++ " " ++ String.intercalate ", " r.2.1, r.2.2.1,
      r.2.2.2)

/-! ## The top-level assembler (`src/query-builder/query-builder.ts`) -/

/-- The component slot map of a `QueryBuilder` (`_componentNodeMap`): one
slot per clause type. -/
structure QueryBuilder where
  matchC : Option PathPatternCommonClauseBuilder := none
  optionalMatchC : Option PathPatternCommonClauseBuilder := none
  mergeC : Option PathPatternCommonClauseBuilder := none
  createC : Option PathPatternCommonClauseBuilder := none
  whereC : Option WhereClauseBuilder := none
  orderByC : Option OrderByClauseBuilder := none
  skipC : Option Int := none
  limitC : Option Int := none
  offsetC : Option Int := none
  returnC : Option ReturnClauseBuilder := none
  finishC : Bool := false

/-- The running `queryContext` of `toParameterizedQuery`. -/
structure QueryContext where
  aliasSet : List String := []
  query : String := ""
  parameters : Props := []

/-- `_appendQueryContext(queryContext, parameterizedQuery, mergeAliasSet)`
for the selective clauses (alias sets merged). -/
def appendSelective (ctx : QueryContext) (aliases : List String)
    (query : String) (parameters : Props) : QueryContext :=
  { aliasSet := aliases.foldl jsSetAdd ctx.aliasSet,
    query := ctx.query ++ query ++ "\n",
    parameters := mergeProperties ctx.parameters (some parameters) }

/-- `_appendQueryContext` for the dependent clauses (no alias merge). -/
def appendDependent (ctx : QueryContext) (query : String)
    (parameters : Props) : QueryContext :=
  { ctx with query := ctx.query ++ query ++ "\n",
             parameters := mergeProperties ctx.parameters (some parameters) }

/-- Message thrown when both RETURN and FINISH are present. -/
def returnFinishMsg : String :=
  "Both RETURN and FINISH components cannot be present in the query"

/-- Process one selective clause slot. -/
def stepSelective (slot : Option PathPatternCommonClauseBuilder)
    (st : QueryContext × Nat) : Except String (QueryContext × Nat) :=
  match slot with
  | none => .ok st
  | some c => do
    let r ← c.toParameterizedQuery st.2
    .ok (appendSelective st.1 r.1 r.2.1 r.2.2.1, r.2.2.2)

/-- Process the WHERE slot: inject the accumulated alias scope via
`setAliasList`, then finalize. -/
def stepWhere (slot : Option WhereClauseBuilder) (st : QueryContext × Nat) :
    Except String (QueryContext × Nat) :=
  match slot with
  | none => .ok st
  | some w => do
    let r ← (w.setAliasList st.1.aliasSet).toParameterizedQuery
    .ok (appendDependent st.1 r.1 r.2, st.2)

/-- Process the ORDER BY slot (scope injected, then finalized). -/
def stepOrderBy (slot : Option OrderByClauseBuilder)
    (st : QueryContext × Nat) : Except String (QueryContext × Nat) :=
  match slot with
  | none => .ok st
  | some o => do
    let r ← (o.setAliasList st.1.aliasSet).toParameterizedQuery
    .ok (appendDependent st.1 r.1 r.2, st.2)

/-- Process a scalar slot (`SKIP n`, `LIMIT n`, `OFFSET n`). -/
def stepScalar (keyword : String) (slot : Option Int)
    (st : QueryContext × Nat) : Except String (QueryContext × Nat) :=
  match slot with
  | none => .ok st
  | some n =>
    .ok ({ st.1 with query := st.1.query ++ keyword ++ " " ++ toString n ++ "\n" },
      st.2)

/-- Process the RETURN/FINISH slots: both present is an error; RETURN gets
the scope injected; FINISH appends the bare keyword. -/
def stepReturnFinish (retSlot : Option ReturnClauseBuilder) (finish : Bool)
    (st : QueryContext × Nat) : Except String (QueryContext × Nat) := do
  if retSlot.isSome && finish then .error returnFinishMsg
  else
    let st ←
      match retSlot with
      | none => pure st
      | some rc => do
        let r ← (rc.setAliasList st.1.aliasSet).toParameterizedQuery
        pure (appendDependent st.1 r.1 r.2, st.2)
    if finish then
      .ok ({ st.1 with query := st.1.query ++ "FINISH\n" }, st.2)
    else .ok st

/-- `QueryBuilder.toParameterizedQuery()` (`query-builder.ts` lines
692–815): the straight-line assembly sequence. -/
def QueryBuilder.toParameterizedQuery (qb : QueryBuilder) (g : Nat) :
    Except String (QueryContext × Nat) := do
  let st : QueryContext × Nat := ({}, g)
  let st ← stepSelective qb.matchC st
  let st ← stepSelective qb.optionalMatchC st
  let st ← stepSelective qb.mergeC st
  let st ← stepSelective qb.createC st
  let st ← stepWhere qb.whereC st
  let st ← stepOrderBy qb.orderByC st
  let st ← stepScalar "SKIP" qb.skipC st
  let st ← stepScalar "LIMIT" qb.limitC st
  let st ← stepScalar "OFFSET" qb.offsetC st
  stepReturnFinish qb.returnC qb.finishC st

/-! ## Theorems -/

/-- **C2.** The spec's claimed rendering: every extracted placeholder is
suffixed in the returned statement and the returned map is keyed by the
suffixed names.  Under the modelled token supply, feeding the two-placeholder
statement `n.a = $a AND n.b = $b` with map `{a: 1, b: 2}` to
`randomizeParameterKeys` returns a statement in which only the *last*
placeholder is suffixed (the loop rebuilds `newStatement` from the original
statement each iteration), while the map is keyed by both suffixed names:
the literal `$a` survives in the returned text and its key `a` is absent
from the returned map, so the placeholder can no longer be resolved.  This
evaluates the code at the failing input of the code-bug report. -/
theorem claim2_randomize_keys_failing_input :
    randomizeParameterKeys "n.a = $a AND n.b = $b"
        (some [("a", NValue.num 1), ("b", NValue.num 2)]) 0
      = ("n.a = $a AND n.b = $b_r1",
          some [("a_r0", NValue.num 1), ("b_r1", NValue.num 2)], 2) ∧
    "$a" ∈ scanKeys "n.a = $a AND n.b = $b_r1".toList ∧
    objGet [("a_r0", NValue.num 1), ("b_r1", NValue.num 2)] "a" = none := by
  refine ⟨rfl, by decide, rfl⟩

/-- The chain `setNode({alias:"n"}).toRelationship({alias:"r"})
.toNode({alias:"m"})` finalized, projected to its pattern text. -/
def claim5Example : Except String String := do
  let b ← PathPatternBuilder.setNode {} { aliasName := "n" }
  let b ← b.toRelationship { aliasName := "r" }
  let b ← b.toNode { aliasName := "m" }
  let r ← b.toParameterizedQuery 0
  pure r.1.query

/-- **C5.** The connector token emitted between an element and its
successor follows the fixed derivation table — node→toNode `-->`,
node→fromNode `<--`, node→toRelationship `-`, node→fromRelationship `<-`,
node→unDirectedNode `--`, relationship→toNode `->`, relationship→fromNode
`-`, and the empty string with no successor — and the example chain
renders `(n)-[r]->(m)`. -/
theorem claim5_connector_tokens :
    (∀ n : NodePatternBuilder,
      getConnectionSymbol ⟨.node n, some .toNode⟩ = "-->" ∧
      getConnectionSymbol ⟨.node n, some .fromNode⟩ = "<--" ∧
      getConnectionSymbol ⟨.node n, some .toRelationship⟩ = "-" ∧
      getConnectionSymbol ⟨.node n, some .fromRelationship⟩ = "<-" ∧
      getConnectionSymbol ⟨.node n, some .unDirectedNode⟩ = "--" ∧
      getConnectionSymbol ⟨.node n, none⟩ = "") ∧
    (∀ r : RelationPatternBuilder,
      getConnectionSymbol ⟨.rel r, some .toNode⟩ = "->" ∧
      getConnectionSymbol ⟨.rel r, some .fromNode⟩ = "-" ∧
      getConnectionSymbol ⟨.rel r, none⟩ = "") ∧
    claim5Example = .ok "(n)-[r]->(m)" :=
  ⟨fun _ => ⟨rfl, rfl, rfl, rfl, rfl, rfl⟩, fun _ => ⟨rfl, rfl, rfl⟩, rfl⟩

/-- The shortest-path prefix grammar exactly as the claim states it:
`<alias> = [ALL] SHORTEST [<length>] [GROUPS] ` — the length emitted
whenever one was given, independently of the all-flag. -/
def claimedShortestPathPrefix (o : ShortestPathOptions) : String :=
  o.aliasName ++ " = " ++ (if o.isAll then "ALL " else "") ++ "SHORTEST" ++
    (match o.length with | some l => " " ++ toString l | none => "") ++
    (if o.isGroup then " GROUPS" else "") ++ " "

/-- An `ALL SHORTEST` annotation with an explicit length 3 on the pattern
`(n)-->(m)`. -/
def claim6Input : Except String PathPatternBuilder := do
  let b ← PathPatternBuilder.setNode {} { aliasName := "n" }
  let b ← b.toNode { aliasName := "m" }
  b.shortestPath { aliasName := "p", length := some 3, isAll := true }

/-- **C6, counterexample.** With the all-flag set *and* a length given, the
code renders `p = ALL SHORTEST (n)-->(m)` — the length is dropped — while
the claimed grammar `<alias> = [ALL] SHORTEST [<length>] [GROUPS] ` demands
`p = ALL SHORTEST 3 (n)-->(m)`. -/
theorem claim6_counterexample :
    (do
      let b ← claim6Input
      let r ← b.toParameterizedQuery 0
      pure r.1.query : Except String String)
      = .ok "p = ALL SHORTEST (n)-->(m)" ∧
    claimedShortestPathPrefix
        { aliasName := "p", length := some 3, isAll := true } ++ "(n)-->(m)"
      = "p = ALL SHORTEST 3 (n)-->(m)" ∧
    ("p = ALL SHORTEST (n)-->(m)" : String) ≠ "p = ALL SHORTEST 3 (n)-->(m)" :=
  ⟨rfl, rfl, by decide⟩

/-- The shortest-path prefix as the code actually renders it (the amended
claim): the length is emitted only when the all-flag is *unset*. -/
def amendedShortestPathPrefix (o : ShortestPathOptions) : String :=
  (if o.isAll then o.aliasName ++ " = ALL SHORTEST"
   else o.aliasName ++ " = SHORTEST" ++
     (match o.length with
       | some l => if 0 < l then " " ++ toString l else ""
       | none => "")) ++
  (if o.isGroup then " GROUPS" else "")

/-- With a non-empty annotation alias already among the pattern's aliases,
the shortest-path wrap throws the uniqueness error. -/
theorem ppShortestPathWrap_mem (o : ShortestPathOptions)
    (combined : List String) (query : String) (hne : o.aliasName ≠ "")
    (hmem : o.aliasName ∈ combined) :
    ppShortestPathWrap o combined query
      = .error (aliasConflictMsg o.aliasName) := by
  unfold ppShortestPathWrap ppMergeAliasSet
  simp [List.foldlM, if_neg hne, if_pos hmem, Bind.bind, Except.bind]

/-- With a fresh non-empty annotation alias, the shortest-path wrap appends
the alias and emits the amended prefix. -/
theorem ppShortestPathWrap_notMem (o : ShortestPathOptions)
    (combined : List String) (query : String) (hne : o.aliasName ≠ "")
    (hmem : o.aliasName ∉ combined) :
    ppShortestPathWrap o combined query
      = .ok (combined ++ [o.aliasName],
          amendedShortestPathPrefix o ++ " " ++ query) := by
  rcases o with ⟨oa, ol, ogrp, oall⟩
  replace hne : oa ≠ "" := hne
  replace hmem : oa ∉ combined := hmem
  unfold ppShortestPathWrap ppMergeAliasSet
  simp only [List.foldlM, if_neg hne, if_neg hmem, amendedShortestPathPrefix,
    pure, Except.pure, Bind.bind, Except.bind]
  rcases ol with _ | l
  · cases ogrp <;> cases oall <;> simp [String.append_assoc]
  · by_cases hl : (0 : Int) < l
    · have hl0 : l ≠ 0 := by omega
      cases ogrp <;> cases oall <;> simp [hl, hl0, String.append_assoc]
    · cases ogrp <;> cases oall <;> simp [hl, String.append_assoc]

/-- **C6, amended.** A `shortestPath` call with a non-positive length fails
at the call itself; at finalize, an annotation alias colliding with a
pattern alias is an `AliasError`; otherwise the rendered text is the base
pattern text prefixed with `<alias> = ALL SHORTEST [GROUPS] ` or
`<alias> = SHORTEST [<length>] [GROUPS] ` — the length appears only when
the all-flag is unset — and the annotation alias joins the alias set. -/
theorem claim6_shortest_path_amended :
    (∀ (b : PathPatternBuilder) (o : ShortestPathOptions) (l : Int),
       o.length = some l → l ≤ 0 →
       b.shortestPath o
         = .error "The length of the shortest path must be greater than 0") ∧
    (∀ (b : PathPatternBuilder) (o : ShortestPathOptions) (g : Nat)
       (res : PathPatternResult) (b2 : PathPatternBuilder) (g' : Nat),
       b.shortestPathOptions = some o →
       ppFinalizeCore b g = .ok (res, b2, g') →
       (o.aliasName ≠ "" → o.aliasName ∈ res.aliases →
         b.toParameterizedQuery g = .error (aliasConflictMsg o.aliasName)) ∧
       (o.aliasName ≠ "" → o.aliasName ∉ res.aliases →
         b.toParameterizedQuery g
           = .ok ({ res with
                     aliases := res.aliases ++ [o.aliasName],
                     query := amendedShortestPathPrefix o ++ " " ++ res.query },
               b2, g'))) := by
  constructor
  · intro b o l hlen hle
    unfold PathPatternBuilder.shortestPath
    rw [hlen]
    simp only [if_pos (by omega : l ≤ 0)]
  · intro b o g res b2 g' hsp hcore
    constructor
    · intro hne hmem
      simp [PathPatternBuilder.toParameterizedQuery, hcore, hsp,
        ppShortestPathWrap_mem o res.aliases res.query hne hmem,
        Bind.bind, Except.bind]
    · intro hne hmem
      simp [PathPatternBuilder.toParameterizedQuery, hcore, hsp,
        ppShortestPathWrap_notMem o res.aliases res.query hne hmem,
        Bind.bind, Except.bind]

/-- The builder state of `(n)-->(m)` carrying the `ALL SHORTEST 3`
annotation, used to witness the amended C6 theorem. -/
def claim6WitnessBuilder : PathPatternBuilder :=
  { elements := [⟨.node { aliasName := "n" }, some .toNode⟩,
                 ⟨.node { aliasName := "m" }, none⟩],
    elementCnt := 2,
    shortestPathOptions :=
      some { aliasName := "p", length := some 3, isAll := true } }

/-- Witness for the amended C6 theorem at concrete inputs: a zero length is
rejected at the call, and the annotated `(n)-->(m)` pattern renders with
the `p = ALL SHORTEST ` prefix. -/
theorem claim6_shortest_path_amended_witness :
    PathPatternBuilder.shortestPath {} { aliasName := "p", length := some 0 }
      = .error "The length of the shortest path must be greater than 0" ∧
    claim6WitnessBuilder.toParameterizedQuery 0
      = .ok ({ aliases := ["n", "m", "p"],
               query := "p = ALL SHORTEST (n)-->(m)",
               parameters := [], warnings := [] },
          { claim6WitnessBuilder with elementCnt := -1 }, 0) :=
  ⟨claim6_shortest_path_amended.1 {} { aliasName := "p", length := some 0 }
      0 rfl (by omega),
    (claim6_shortest_path_amended.2 claim6WitnessBuilder
        { aliasName := "p", length := some 3, isAll := true } 0
        { aliases := ["n", "m"], query := "(n)-->(m)", parameters := [],
          warnings := [] }
        { claim6WitnessBuilder with elementCnt := -1 } 0 rfl rfl).2
      (by decide) (by decide)⟩

/-- The assembled query
`match(p=>p.setNode({alias:"n"})).where(w=>w.add("m.name = 'x'"))`. -/
def claim1Builder : Except String QueryBuilder := do
  let p ← PathPatternBuilder.setNode {} { aliasName := "n" }
  let w ← WhereClauseBuilder.add {} "m.name = 'x'" none 0
  pure { matchC := some { keyword := "MATCH", patterns := [p] },
         whereC := some w.1 }

/-- **C1.** WHERE alias validation is deferred: an `add`/`and`/`or` call
with a raw statement never consults the builder's alias scope (the call's
outcome is the same under any injected scope); `setAliasList` overwrites
any previously injected scope, so the flatten pass validates against the
scope last injected; the statement `m.name = 'x'` is accepted by `add`
although `m` is unknown, and the assembled query
`match(p=>p.setNode({alias:"n"})).where(w=>w.add("m.name = 'x'"))` only
fails at `toParameterizedQuery()`, with the `AliasError` naming `m`. -/
theorem claim1_where_alias_validation_deferred :
    (∀ (b : WhereClauseBuilder) (A : List String) (m1 m2 : Bool)
       (st : String) (ps : Option Props) (g : Nat),
       applyWhereOp { b with aliasSet := A } (m1, m2, .stmt st ps) g
         = (applyWhereOp b (m1, m2, .stmt st ps) g).map
             (fun r => ({ r.1 with aliasSet := A }, r.2))) ∧
    (∀ (b : WhereClauseBuilder) (l1 l2 : List String),
       (b.setAliasList l1).setAliasList l2 = b.setAliasList l2) ∧
    WhereClauseBuilder.add {} "m.name = 'x'" none 0
      = .ok ({ whereNodeList := [.stmt "m.name = 'x'" (some [])] }, 0) ∧
    (claim1Builder >>= (fun qb => qb.toParameterizedQuery 0))
      = .error (aliasErrMsg "m") := by
  refine ⟨?_, fun b l1 l2 => rfl, rfl, rfl⟩
  intro b A m1 m2 st ps g
  cases m1 with
  | true =>
    by_cases hlen : b.whereNodeList.length ≠ 0
    · simp [applyWhereOp, hlen, Except.map]
    · cases ps with
      | none =>
        simp [applyWhereOp, hlen, commonNodeHandler, createSingleStatement,
          Except.map, Bind.bind, Except.bind]
      | some p =>
        by_cases hchk : checkParameterValid st p
        · simp [applyWhereOp, hlen, commonNodeHandler, createSingleStatement,
            hchk, Except.map, Bind.bind, Except.bind]
        · simp [applyWhereOp, hlen, commonNodeHandler, createSingleStatement,
            hchk, Except.map, Bind.bind, Except.bind]
  | false =>
    cases ps with
    | none =>
      simp [applyWhereOp, commonNodeHandler, createSingleStatement,
        Except.map, Bind.bind, Except.bind]
    | some p =>
      by_cases hchk : checkParameterValid st p
      · simp [applyWhereOp, commonNodeHandler, createSingleStatement, hchk,
          Except.map, Bind.bind, Except.bind]
      · simp [applyWhereOp, commonNodeHandler, createSingleStatement, hchk,
          Except.map, Bind.bind, Except.bind]

/-- `_checkAliasValid` can only throw the per-alias `AliasError`. -/
theorem checkAliasValid_error_shape (aliasSet : List String) (s m : String)
    (h : checkAliasValid aliasSet s = .error m) : ∃ a, m = aliasErrMsg a := by
  simp only [checkAliasValid] at h
  split at h
  · exact absurd h (by simp)
  · split at h
    · simp only [Except.error.injEq] at h
      exact ⟨_, h.symm⟩
    · exact absurd h (by simp)

/-- The flatten pass can only throw alias errors: either the
zero-or-several-aliases rejection or the per-alias `AliasError`. -/
theorem buildNodesF_error_shape (aliasSet : List String) (fuel : Nat) :
    ∀ (nodes : List WhereNode) (acc : List String) (ps : Props) (m : String),
      buildNodesF aliasSet fuel nodes acc ps = .error m →
      m = statementAliasErrMsg ∨ ∃ a, m = aliasErrMsg a := by
  induction fuel with
  | zero =>
    intro nodes acc ps m h
    cases nodes <;> simp [buildNodesF] at h
  | succ fuel ih =>
    intro nodes acc ps m h
    cases nodes with
    | nil => simp [buildNodesF] at h
    | cons n rest =>
      cases n with
      | stmt s p =>
        unfold buildNodesF at h
        rcases hv : checkAliasValid aliasSet s with e | v
        · rw [hv] at h
          simp [Bind.bind, Except.bind] at h
          exact .inr (h ▸ checkAliasValid_error_shape aliasSet s e hv)
        · rw [hv] at h
          simp only [Bind.bind, Except.bind] at h
          cases v with
          | false => simp at h; exact .inl h.symm
          | true => simpa using ih rest _ _ m (by simpa using h)
      | and => exact ih rest _ _ m (by simpa [buildNodesF] using h)
      | or => exact ih rest _ _ m (by simpa [buildNodesF] using h)
      | bracket sub =>
        unfold buildNodesF at h
        rcases hs : buildNodesF aliasSet fuel sub [] [] with e | r
        · rw [hs] at h
          simp [Bind.bind, Except.bind] at h
          exact h ▸ ih sub [] [] e hs
        · rw [hs] at h
          simp only [Bind.bind, Except.bind] at h
          exact ih rest _ _ m h

/-- **C8.** With a property map supplied, the `$key`-coverage check is
eager: an `add`/`and`/`or` call whose statement contains a `$key` with no
matching map entry throws the `ParameterError` immediately, and the
finalize pass can never produce that error (its errors are exactly the
alias errors), so the check is not deferred. -/
theorem claim8_eager_parameter_check :
    (∀ (b : WhereClauseBuilder) (st : String) (ps : Props) (g : Nat)
       (k : String), k ∈ scanKeys st.toList → objGet ps (k.drop 1) = none →
       b.and st (some ps) g = .error parameterErrMsg ∧
       b.or st (some ps) g = .error parameterErrMsg ∧
       (b.whereNodeList = [] →
         b.add st (some ps) g = .error parameterErrMsg)) ∧
    (∀ (b : WhereClauseBuilder) (m : String),
       b.toParameterizedQuery = .error m → m ≠ parameterErrMsg) := by
  constructor
  · intro b st ps g k hk hnone
    have hchk : checkParameterValid st ps = false := by
      have hne : (scanKeys st.toList).isEmpty = false := by
        cases hsc : scanKeys st.toList with
        | nil => rw [hsc] at hk; cases hk
        | cons _ _ => rfl
      unfold checkParameterValid
      simp only [hne, Bool.false_eq_true, if_false]
      rw [List.all_eq_false]
      refine ⟨k, hk, ?_⟩
      simp [objGetD, hnone, NValue.truthy]
    refine ⟨?_, ?_, ?_⟩
    · simp [WhereClauseBuilder.and, applyWhereOp, commonNodeHandler,
        createSingleStatement, hchk, Bind.bind, Except.bind]
    · simp [WhereClauseBuilder.or, applyWhereOp, commonNodeHandler,
        createSingleStatement, hchk, Bind.bind, Except.bind]
    · intro hempty
      simp [WhereClauseBuilder.add, applyWhereOp, commonNodeHandler,
        createSingleStatement, hchk, hempty, Bind.bind, Except.bind]
  · intro b m h
    unfold WhereClauseBuilder.toParameterizedQuery at h
    by_cases hemp : b.whereNodeList.length = 0
    · simp [hemp] at h
    · simp only [hemp, if_false, if_neg] at h
      rcases hb : buildNodes b.aliasSet b.whereNodeList [] b.parameters
        with e | r
      · rw [hb] at h
        simp [Bind.bind, Except.bind] at h
        subst h
        rcases buildNodesF_error_shape _ _ _ _ _ _ hb with h1 | ⟨a, h2⟩
        · subst h1; decide
        · subst h2
          intro hcontra
          have hlen := congrArg String.length hcontra
          simp only [aliasErrMsg, String.length_append] at hlen
          have e1 : parameterErrMsg.length = 44 := rfl
          have e2 : ("The alias " : String).length = 10 := rfl
          have e3 : (" is not valid. Check if the alias is in the match, create, with, merge or optional match clause" : String).length = 95 := rfl
          rw [e1, e2, e3] at hlen
          omega
      · rw [hb] at h
        simp [Bind.bind, Except.bind] at h

/-- Witness for the eager parameter check: `and` with a non-matching map
throws the `ParameterError` at the call, and a finalize-time error (an
unknown-alias error) is never the `ParameterError`. -/
theorem claim8_eager_parameter_check_witness :
    WhereClauseBuilder.and {} "n.age > $age"
        (some [("wrong", NValue.num 25)]) 0
      = .error parameterErrMsg ∧
    aliasErrMsg "m" ≠ parameterErrMsg :=
  ⟨(claim8_eager_parameter_check.1 {} "n.age > $age"
      [("wrong", NValue.num 25)] 0 "$age" (by decide) rfl).1,
    claim8_eager_parameter_check.2
      { whereNodeList := [.stmt "m.x = 1" none] } (aliasErrMsg "m") rfl⟩

mutual

/-- Whether a WHERE node is (or contains) a statement whose text yields a
number of distinct aliases other than one. -/
def whereNodeHasBadStmt : WhereNode → Bool
  | .stmt s _ => (extractAliasFromSet s).length ≠ 1
  | .bracket sub => whereNodeListHasBadStmt sub
  | .and => false
  | .or => false

/-- Whether a WHERE node list contains such a statement, at any depth. -/
def whereNodeListHasBadStmt : List WhereNode → Bool
  | [] => false
  | n :: rest => whereNodeHasBadStmt n || whereNodeListHasBadStmt rest

end

/-- Every WHERE node has positive size. -/
theorem whereNodeSize_pos (n : WhereNode) : 1 ≤ whereNodeSize n := by
  cases n <;> simp [whereNodeSize]

/-- A node list containing a statement with a number of distinct aliases
other than one makes the flatten pass fail, whatever the alias scope. -/
theorem buildNodesF_bad_errors :
    ∀ (fuel : Nat) (nodes : List WhereNode) (acc : List String) (ps : Props)
      (aliasSet : List String),
      whereNodeListSize nodes ≤ fuel →
      whereNodeListHasBadStmt nodes = true →
      ∃ m, buildNodesF aliasSet fuel nodes acc ps = .error m := by
  intro fuel
  induction fuel with
  | zero =>
    intro nodes acc ps aliasSet hsz hbad
    cases nodes with
    | nil => simp [whereNodeListHasBadStmt] at hbad
    | cons n rest =>
      exfalso
      have h1 := whereNodeSize_pos n
      simp only [whereNodeListSize] at hsz
      omega
  | succ fuel ih =>
    intro nodes acc ps aliasSet hsz hbad
    cases nodes with
    | nil => simp [whereNodeListHasBadStmt] at hbad
    | cons n rest =>
      simp only [whereNodeListHasBadStmt, Bool.or_eq_true] at hbad
      simp only [whereNodeListSize] at hsz
      cases n with
      | stmt s p =>
        by_cases hb : (extractAliasFromSet s).length ≠ 1
        · refine ⟨statementAliasErrMsg, ?_⟩
          simp [buildNodesF, checkAliasValid, hb, Bind.bind, Except.bind]
        · have hrest : whereNodeListHasBadStmt rest = true := by
            rcases hbad with hbad | hbad
            · simp [whereNodeHasBadStmt, hb] at hbad
            · exact hbad
          have hs : whereNodeListSize rest ≤ fuel := by
            simp only [whereNodeSize] at hsz
            omega
          unfold buildNodesF
          rcases hv : checkAliasValid aliasSet s with e | v
          · exact ⟨e, by simp [hv, Bind.bind, Except.bind]⟩
          · cases v with
            | false =>
              exact ⟨statementAliasErrMsg, by simp [hv, Bind.bind, Except.bind]⟩
            | true =>
              obtain ⟨m, hm⟩ := ih rest (acc ++ [s])
                (mergeProperties ps p) aliasSet hs hrest
              exact ⟨m, by simp [hv, Bind.bind, Except.bind, hm]⟩
      | and =>
        have hrest : whereNodeListHasBadStmt rest = true := by
          rcases hbad with hbad | hbad
          · simp [whereNodeHasBadStmt] at hbad
          · exact hbad
        have hs : whereNodeListSize rest ≤ fuel := by
          simp only [whereNodeSize] at hsz; omega
        obtain ⟨m, hm⟩ := ih rest (acc ++ ["AND"]) ps aliasSet hs hrest
        exact ⟨m, by simp [buildNodesF, hm]⟩
      | or =>
        have hrest : whereNodeListHasBadStmt rest = true := by
          rcases hbad with hbad | hbad
          · simp [whereNodeHasBadStmt] at hbad
          · exact hbad
        have hs : whereNodeListSize rest ≤ fuel := by
          simp only [whereNodeSize] at hsz; omega
        obtain ⟨m, hm⟩ := ih rest (acc ++ ["OR"]) ps aliasSet hs hrest
        exact ⟨m, by simp [buildNodesF, hm]⟩
      | bracket sub =>
        simp only [whereNodeSize] at hsz
        by_cases hbs : whereNodeListHasBadStmt sub = true
        · obtain ⟨m, hm⟩ := ih sub [] [] aliasSet (by omega) hbs
          exact ⟨m, by simp [buildNodesF, hm, Bind.bind, Except.bind]⟩
        · have hrest : whereNodeListHasBadStmt rest = true := by
            rcases hbad with hbad | hbad
            · exact absurd hbad hbs
            · exact hbad
          unfold buildNodesF
          rcases hr : buildNodesF aliasSet fuel sub [] [] with e | r
          · exact ⟨e, by simp [hr, Bind.bind, Except.bind]⟩
          · obtain ⟨m, hm⟩ := ih rest (acc ++ ["( " ++ r.1 ++ " )"])
              (mergeProperties ps (some r.2)) aliasSet (by omega) hrest
            exact ⟨m, by simp [hr, Bind.bind, Except.bind, hm]⟩

/-- **C9.** At the WHERE flatten pass every statement must reference
exactly one distinct alias: a builder holding (at any depth) a statement
whose text yields zero, or two or more, distinct aliases fails to finalize
under *every* alias scope — in particular `n.age > m.age` is rejected even
though both `n` and `m` are in the injected scope, and the alias-free
`TRUE` is rejected as well. -/
theorem claim9_single_alias_per_statement :
    (∀ (b : WhereClauseBuilder),
       whereNodeListHasBadStmt b.whereNodeList = true →
       b.whereNodeList.length ≠ 0 →
       ∃ m, b.toParameterizedQuery = .error m) ∧
    (do
      let w ← WhereClauseBuilder.add {} "n.age > m.age" none 0
      (w.1.setAliasList ["n", "m"]).toParameterizedQuery : Except String (String × Props))
      = .error statementAliasErrMsg ∧
    (do
      let w ← WhereClauseBuilder.add {} "TRUE" none 0
      (w.1.setAliasList ["n", "m"]).toParameterizedQuery : Except String (String × Props))
      = .error statementAliasErrMsg := by
  refine ⟨?_, rfl, rfl⟩
  intro b hbad hlen
  unfold WhereClauseBuilder.toParameterizedQuery
  simp only [hlen, if_false, if_neg]
  obtain ⟨m, hm⟩ := buildNodesF_bad_errors (whereNodeListSize b.whereNodeList)
    b.whereNodeList [] b.parameters b.aliasSet (le_refl _) hbad
  exact ⟨m, by simp [buildNodes, hm, Bind.bind, Except.bind]⟩

/-- Witness for C9: the single-statement builder holding `n.age > m.age`
fails to finalize under the scope `{n, m}`. -/
theorem claim9_single_alias_per_statement_witness :
    ∃ m, WhereClauseBuilder.toParameterizedQuery
        { aliasSet := ["n", "m"],
          whereNodeList := [.stmt "n.age > m.age" none] }
      = .error m :=
  claim9_single_alias_per_statement.1
    { aliasSet := ["n", "m"], whereNodeList := [.stmt "n.age > m.age" none] }
    (by decide) (by decide)

/-- With a non-positive counter the traversal loop visits nothing and
only post-decrements the counter. -/
theorem ppLoop_nonpos (es : List PElem) (cnt : Int) (acc : PPLoopAcc)
    (g : Nat) (h : ¬ 0 < cnt) : ppLoop es cnt acc g = .ok (acc, cnt - 1, g) := by
  cases es <;> simp [ppLoop, h]

/-- Whenever the traversal loop returns, the counter has been driven to
`-1` or below. -/
theorem ppLoop_ok_cnt :
    ∀ (es : List PElem) (cnt : Int) (acc : PPLoopAcc) (g : Nat)
      (r : PPLoopAcc × Int × Nat),
      ppLoop es cnt acc g = .ok r → r.2.1 ≤ -1 := by
  intro es
  induction es with
  | nil =>
    intro cnt acc g r h
    by_cases hc : 0 < cnt
    · simp [ppLoop, hc] at h
    · simp [ppLoop, hc] at h
      subst h
      simp
      omega
  | cons e rest ih =>
    intro cnt acc g r h
    by_cases hc : 0 < cnt
    · simp only [ppLoop, hc, if_true] at h
      rcases hs : ppStep acc e g with e' | r'
      · rw [hs] at h
        simp [Bind.bind, Except.bind] at h
      · rw [hs] at h
        simp only [Bind.bind, Except.bind] at h
        exact ih _ _ _ r h
    · simp [ppLoop, hc] at h
      subst h
      simp
      omega

/-- `ghostStart` never touches the shortest-path options. -/
theorem ghostStart_sp (b : PathPatternBuilder) (t : ConnType) :
    (ghostStart b t).shortestPathOptions = b.shortestPathOptions := by
  unfold ghostStart
  split
  · split <;> rfl
  · rfl

/-- `toNode` on a non-empty chain succeeds and leaves the appended
anonymous-or-named node as the chain's last element. -/
theorem toNode_ok_last (b : PathPatternBuilder) (n : NodePatternBuilder)
    (hne : b.elements ≠ []) :
    ∃ b2, b.toNode n = .ok b2 ∧ b2.elements ≠ [] ∧
      b2.elements.getLast? = some ⟨.node n, none⟩ ∧
      b2.shortestPathOptions = b.shortestPathOptions := by
  have he : b.elements.isEmpty = false := by
    cases hb : b.elements with
    | nil => exact absurd hb hne
    | cons _ _ => rfl
  refine ⟨{ ghostStart b .toRelationship with
            elements := setLastNextType
                (ghostStart b .toRelationship).elements .toNode
              ++ [⟨.node n, none⟩],
            elementCnt := (ghostStart b .toRelationship).elementCnt + 1 },
    ?_, by simp, by simp [List.getLast?_concat], ghostStart_sp b _⟩
  simp [PathPatternBuilder.toNode, he]

/-- `fromNode` likewise. -/
theorem fromNode_ok_last (b : PathPatternBuilder) (n : NodePatternBuilder)
    (hne : b.elements ≠ []) :
    ∃ b2, b.fromNode n = .ok b2 ∧ b2.elements ≠ [] ∧
      b2.elements.getLast? = some ⟨.node n, none⟩ ∧
      b2.shortestPathOptions = b.shortestPathOptions := by
  have he : b.elements.isEmpty = false := by
    cases hb : b.elements with
    | nil => exact absurd hb hne
    | cons _ _ => rfl
  refine ⟨{ ghostStart b .fromRelationship with
            elements := setLastNextType
                (ghostStart b .fromRelationship).elements .fromNode
              ++ [⟨.node n, none⟩],
            elementCnt := (ghostStart b .fromRelationship).elementCnt + 1 },
    ?_, by simp, by simp [List.getLast?_concat], ghostStart_sp b _⟩
  simp [PathPatternBuilder.fromNode, he]

/-- After a successful ghost repair the chain is non-empty and ends with a
node element. -/
theorem ppRepair_last_node (b b1 : PathPatternBuilder) (w : List String)
    (hne : b.elements ≠ []) (h : ppRepair b = .ok (b1, w)) :
    b1.elements ≠ [] ∧
    ∃ e, b1.elements.getLast? = some e ∧ e.frag.isRel = false := by
  unfold ppRepair at h
  split at h
  next heq => exact absurd (List.getLast?_eq_none_iff.mp heq) hne
  next last heq =>
    split at h
    · split at h
      · obtain ⟨b2, hb2, hne2, hlast2, hsp2⟩ := toNode_ok_last
          { b with elements := ⟨.node {}, some .toRelationship⟩ :: b.elements,
                   elementCnt := b.elementCnt + 1 } {} (by simp)
        rw [hb2] at h
        simp only [Except.map, Except.ok.injEq, Prod.mk.injEq] at h
        obtain ⟨hb1, -⟩ := h
        subst hb1
        exact ⟨hne2, ⟨_, hlast2, rfl⟩⟩
      · split at h
        · obtain ⟨b2, hb2, hne2, hlast2, hsp2⟩ := fromNode_ok_last b {} hne
          rw [hb2] at h
          simp only [Except.map, Except.ok.injEq, Prod.mk.injEq] at h
          obtain ⟨hb1, -⟩ := h
          subst hb1
          exact ⟨hne2, ⟨_, hlast2, rfl⟩⟩
        · obtain ⟨b2, hb2, hne2, hlast2, hsp2⟩ := toNode_ok_last b {} hne
          rw [hb2] at h
          simp only [Except.map, Except.ok.injEq, Prod.mk.injEq] at h
          obtain ⟨hb1, -⟩ := h
          subst hb1
          exact ⟨hne2, ⟨_, hlast2, rfl⟩⟩
        · exact absurd h (by simp)
    · next hrel =>
        simp only [Except.ok.injEq, Prod.mk.injEq] at h
        obtain ⟨hb1, -⟩ := h
        subst hb1
        exact ⟨hne, ⟨last, heq, by simpa using hrel⟩⟩

/-- A finalize pass whose chain is non-empty, ends in a node and whose
counter is already exhausted fails the at-least-one-alias check. -/
theorem ppFinalizeCore_spent (b : PathPatternBuilder) (g : Nat)
    (hne : b.elements ≠ [])
    (hlast : ∃ e, b.elements.getLast? = some e ∧ e.frag.isRel = false)
    (hcnt : b.elementCnt ≤ -1) :
    ppFinalizeCore b g = .error noAliasMsg := by
  obtain ⟨e, hl, hrel⟩ := hlast
  have he : b.elements.isEmpty = false := by
    cases hb : b.elements with
    | nil => exact absurd hb hne
    | cons _ _ => rfl
  have hrp : ppRepair b = .ok (b, []) := by
    unfold ppRepair
    rw [hl]
    simp [hrel]
  have hlp : ppLoop b.elements b.elementCnt {} g
      = .ok ({}, b.elementCnt - 1, g) :=
    ppLoop_nonpos _ _ _ _ (by omega)
  unfold ppFinalizeCore
  simp [he, hrp, hlp, Bind.bind, Except.bind, PPLoopAcc.nodeAliasSet,
    PPLoopAcc.relAliasSet]

/-- **C10.** Finalization is not repeatable: once `toParameterizedQuery()`
has returned successfully, the internal element counter is spent (below
zero), so a second `toParameterizedQuery()` on the returned builder state
visits no elements and throws the at-least-one-alias error. -/
theorem claim10_finalize_not_repeatable :
    ∀ (b : PathPatternBuilder) (g : Nat) (res : PathPatternResult)
      (b' : PathPatternBuilder) (g' : Nat),
      b.toParameterizedQuery g = .ok (res, b', g') →
      ∀ g2 : Nat, b'.toParameterizedQuery g2 = .error noAliasMsg := by
  intro b g res b' g' h g2
  rcases hcore : ppFinalizeCore b g with e | r
  · rw [PathPatternBuilder.toParameterizedQuery, hcore] at h
    simp [Bind.bind, Except.bind] at h
  · -- the post-state of a successful call is the core's post-state
    have hb' : b' = r.2.1 := by
      rw [PathPatternBuilder.toParameterizedQuery, hcore] at h
      simp only [Bind.bind, Except.bind] at h
      split at h
      · simp only [Except.ok.injEq] at h
        rw [h]
      · split at h
        · exact absurd h (by simp)
        · simp only [Except.ok.injEq, Prod.mk.injEq] at h
          exact h.2.1.symm
    -- dissect the successful core run
    rw [ppFinalizeCore] at hcore
    by_cases he : b.elements.isEmpty
    · simp [he] at hcore
    · have hne : b.elements ≠ [] := by
        cases hb : b.elements with
        | nil => rw [hb] at he; exact absurd rfl he
        | cons _ _ => simp
      simp only [he, if_false, Bool.false_eq_true, if_neg,
        Bind.bind, Except.bind] at hcore
      split at hcore
      · exact absurd hcore (by simp)
      next rp hrp =>
        split at hcore
        · exact absurd hcore (by simp)
        next lr hlp =>
          split at hcore
          · exact absurd hcore (by simp)
          next hz =>
            simp only [Except.ok.injEq] at hcore
            have hr21 : r.2.1 = { rp.1 with elementCnt := lr.2.1 } := by
              rw [← hcore]
            obtain ⟨hne1, hlast1⟩ := ppRepair_last_node b rp.1 rp.2 hne hrp
            have hcnt : lr.2.1 ≤ -1 := ppLoop_ok_cnt _ _ _ _ _ hlp
            rw [PathPatternBuilder.toParameterizedQuery]
            rw [hb', hr21]
            have hfin := ppFinalizeCore_spent
              { rp.1 with elementCnt := lr.2.1 } g2 (by simpa using hne1)
              (by simpa using hlast1) (by simpa using hcnt)
            rw [hfin]
            simp [Bind.bind, Except.bind]

/-- Witness for C10: finalizing `(n)` once succeeds; the returned state
(counter at `-1`) fails on the second call. -/
theorem claim10_finalize_not_repeatable_witness :
    PathPatternBuilder.toParameterizedQuery
        { elements := [⟨.node { aliasName := "n" }, none⟩],
          elementCnt := -1 } 0
      = .error noAliasMsg :=
  claim10_finalize_not_repeatable
    { elements := [⟨.node { aliasName := "n" }, none⟩], elementCnt := 1 } 0
    { aliases := ["n"], query := "(n)", parameters := [], warnings := [] }
    { elements := [⟨.node { aliasName := "n" }, none⟩], elementCnt := -1 } 0
    rfl 0

/-- A chain all of whose elements are anonymous (empty alias). -/
def anonChain (es : List PElem) : Prop := ∀ e ∈ es, e.aliasName = ""

/-- `setLastNextType` keeps the chain length. -/
theorem setLastNextType_length (es : List PElem) (t : ConnType) :
    (setLastNextType es t).length = es.length := by
  induction es with
  | nil => rfl
  | cons e rest ih =>
    cases rest with
    | nil => rfl
    | cons f rest' => simpa [setLastNextType] using ih

/-- `setLastNextType` keeps every element's alias. -/
theorem setLastNextType_anon (es : List PElem) (t : ConnType)
    (h : anonChain es) : anonChain (setLastNextType es t) := by
  induction es with
  | nil => exact h
  | cons e rest ih =>
    cases rest with
    | nil =>
      intro x hx
      rcases List.mem_cons.mp hx with hx | hx
      · rw [hx]
        exact h e (by simp)
      · simp at hx
    | cons f rest' =>
      intro x hx
      rcases List.mem_cons.mp hx with hx | hx
      · rw [hx]
        exact h e (by simp)
      · exact ih (fun y hy => h y (by simp [List.mem_cons.mp hy])) x hx

/-- `ghostStart` keeps the counter-equals-length invariant and chain
anonymity, and never empties the chain. -/
theorem ghostStart_props (b : PathPatternBuilder) (t : ConnType)
    (hne : b.elements ≠ []) (hwf : b.elementCnt = b.elements.length)
    (hall : anonChain b.elements) :
    (ghostStart b t).elements ≠ [] ∧
    (ghostStart b t).elementCnt = (ghostStart b t).elements.length ∧
    anonChain (ghostStart b t).elements := by
  unfold ghostStart
  split
  next e hsingle =>
    split
    · refine ⟨by simp, ?_, ?_⟩
      · simp [hsingle] at hwf ⊢
        omega
      · intro y hy
        rcases List.mem_cons.mp hy with hy | hy
        · rw [hy]; rfl
        · rw [hsingle] at hall
          exact hall y hy
    · exact ⟨hne, hwf, hall⟩
  next => exact ⟨hne, hwf, hall⟩

/-- `toNode` with an anonymous node keeps the counter-equals-length
invariant and chain anonymity. -/
theorem toNode_props (b : PathPatternBuilder) (n : NodePatternBuilder)
    (hne : b.elements ≠ []) (hwf : b.elementCnt = b.elements.length)
    (hall : anonChain b.elements) (hn : n.aliasName = "") :
    ∃ b2, b.toNode n = .ok b2 ∧ b2.elements ≠ [] ∧
      b2.elementCnt = b2.elements.length ∧ anonChain b2.elements := by
  have he : b.elements.isEmpty = false := by
    cases hb : b.elements with
    | nil => exact absurd hb hne
    | cons _ _ => rfl
  obtain ⟨hg1, hg2, hg3⟩ := ghostStart_props b .toRelationship hne hwf hall
  refine ⟨{ ghostStart b .toRelationship with
            elements := setLastNextType
                (ghostStart b .toRelationship).elements .toNode
              ++ [⟨.node n, none⟩],
            elementCnt := (ghostStart b .toRelationship).elementCnt + 1 },
    by simp [PathPatternBuilder.toNode, he], by simp, ?_, ?_⟩
  · simp only [setLastNextType_length, List.length_append, List.length_cons,
      List.length_nil, hg2]
    omega
  · intro x hx
    rcases List.mem_append.mp hx with hx | hx
    · exact setLastNextType_anon _ _ hg3 x hx
    · simp at hx
      rw [hx, PElem.aliasName]
      exact hn

/-- `fromNode` likewise. -/
theorem fromNode_props (b : PathPatternBuilder) (n : NodePatternBuilder)
    (hne : b.elements ≠ []) (hwf : b.elementCnt = b.elements.length)
    (hall : anonChain b.elements) (hn : n.aliasName = "") :
    ∃ b2, b.fromNode n = .ok b2 ∧ b2.elements ≠ [] ∧
      b2.elementCnt = b2.elements.length ∧ anonChain b2.elements := by
  have he : b.elements.isEmpty = false := by
    cases hb : b.elements with
    | nil => exact absurd hb hne
    | cons _ _ => rfl
  obtain ⟨hg1, hg2, hg3⟩ := ghostStart_props b .fromRelationship hne hwf hall
  refine ⟨{ ghostStart b .fromRelationship with
            elements := setLastNextType
                (ghostStart b .fromRelationship).elements .fromNode
              ++ [⟨.node n, none⟩],
            elementCnt := (ghostStart b .fromRelationship).elementCnt + 1 },
    by simp [PathPatternBuilder.fromNode, he], by simp, ?_, ?_⟩
  · simp only [setLastNextType_length, List.length_append, List.length_cons,
      List.length_nil, hg2]
    omega
  · intro x hx
    rcases List.mem_append.mp hx with hx | hx
    · exact setLastNextType_anon _ _ hg3 x hx
    · simp at hx
      rw [hx, PElem.aliasName]
      exact hn

/-- The well-formedness the chain-building API maintains for the repair
step: a trailing relationship that has a predecessor was connected by
`toRelationship` or `fromRelationship`. -/
def trailingRepairable (b : PathPatternBuilder) : Prop :=
  ∀ e, b.elements.getLast? = some e → e.frag.isRel = true →
    b.elementCnt ≠ 1 →
    (b.elements.dropLast.getLast?).bind (fun x => x.nextType)
        = some .toRelationship ∨
    (b.elements.dropLast.getLast?).bind (fun x => x.nextType)
        = some .fromRelationship

/-- Ghost repair on a well-formed all-anonymous chain succeeds and keeps
the chain non-empty, the counter equal to the length, and every element
anonymous. -/
theorem ppRepair_props (b : PathPatternBuilder)
    (hne : b.elements ≠ []) (hwf : b.elementCnt = b.elements.length)
    (hall : anonChain b.elements) (hconn : trailingRepairable b) :
    ∃ b1 w, ppRepair b = .ok (b1, w) ∧ b1.elements ≠ [] ∧
      b1.elementCnt = b1.elements.length ∧ anonChain b1.elements := by
  rcases hl : b.elements.getLast? with _ | last
  · exact absurd (List.getLast?_eq_none_iff.mp hl) hne
  · by_cases hrel : last.frag.isRel
    · by_cases hcnt : b.elementCnt = 1
      · obtain ⟨b2, hb2, p1, p2, p3⟩ := toNode_props
          { b with elements := ⟨.node {}, some .toRelationship⟩ :: b.elements,
                   elementCnt := b.elementCnt + 1 } {}
          (by simp) (by simp [hwf])
          (by
            intro y hy
            rcases List.mem_cons.mp hy with hy | hy
            · rw [hy]; rfl
            · exact hall y hy)
          rfl
        refine ⟨b2, [soleRelWarn], ?_, p1, p2, p3⟩
        unfold ppRepair
        split
        next heq => simp [heq] at hl
        next last' heq =>
          rw [hl] at heq
          injection heq with heq
          subst heq
          rw [if_pos hrel, if_pos hcnt]
          simp [hb2, Except.map]
      · rcases hconn last hl hrel hcnt with hc | hc
        · obtain ⟨b2, hb2, p1, p2, p3⟩ := toNode_props b {} hne hwf hall rfl
          refine ⟨b2, [danglingRelWarn], ?_, p1, p2, p3⟩
          unfold ppRepair
          split
          next heq => simp [heq] at hl
          next last' heq =>
            rw [hl] at heq
            injection heq with heq
            subst heq
            rw [if_pos hrel, if_neg hcnt, hc]
            simp [hb2, Except.map]
        · obtain ⟨b2, hb2, p1, p2, p3⟩ := fromNode_props b {} hne hwf hall rfl
          refine ⟨b2, [danglingRelWarn], ?_, p1, p2, p3⟩
          unfold ppRepair
          split
          next heq => simp [heq] at hl
          next last' heq =>
            rw [hl] at heq
            injection heq with heq
            subst heq
            rw [if_pos hrel, if_neg hcnt, hc]
            simp [hb2, Except.map]
    · refine ⟨b, [], ?_, hne, hwf, hall⟩
      unfold ppRepair
      split
      next heq => simp [heq] at hl
      next last' heq =>
        rw [hl] at heq
        injection heq with heq
        subst heq
        rw [if_neg hrel]

/-- Traversing an all-anonymous chain with the counter equal to its length
succeeds and collects no aliases. -/
theorem ppLoop_anon :
    ∀ (es : List PElem) (acc : PPLoopAcc) (g : Nat),
      anonChain es →
      "" ∉ acc.nodeAliasSet → "" ∉ acc.relAliasSet →
      ∃ acc' g', ppLoop es (es.length : Int) acc g = .ok (acc', -1, g') ∧
        acc'.nodeAliasSet = acc.nodeAliasSet ∧
        acc'.relAliasSet = acc.relAliasSet := by
  intro es
  induction es with
  | nil =>
    intro acc g _ _ _
    exact ⟨acc, g, by simp [ppLoop], rfl, rfl⟩
  | cons e rest ih =>
    intro acc g hall hn hr
    have halias : e.aliasName = "" := hall e (by simp)
    have hstep : ∃ q ps g2, ppStep acc e g
        = .ok ({ acc with query := acc.query ++ q, parameters := ps }, g2) := by
      cases hf : e.frag with
      | node nn =>
        have hna : nn.aliasName = "" := by
          simpa [PElem.aliasName, hf] using halias
        refine ⟨(nn.toParameterizedQuery g).2.1 ++ getConnectionSymbol e,
          mergeProperties acc.parameters
            (some (nn.toParameterizedQuery g).2.2.1),
          (nn.toParameterizedQuery g).2.2.2, ?_⟩
        simp [ppStep, PElem.render, hf, PFrag.isRel,
          NodePatternBuilder.toParameterizedQuery, hna, ppMergeAliasSet,
          ppCheckAliasConflict, List.foldlM, Bind.bind, Except.bind, pure,
          Except.pure, hr, String.append_assoc]
      | rel rr =>
        have hna : rr.aliasName = "" := by
          simpa [PElem.aliasName, hf] using halias
        refine ⟨(rr.toParameterizedQuery g).2.1 ++ getConnectionSymbol e,
          mergeProperties acc.parameters
            (some (rr.toParameterizedQuery g).2.2.1),
          (rr.toParameterizedQuery g).2.2.2, ?_⟩
        simp [ppStep, PElem.render, hf, PFrag.isRel,
          RelationPatternBuilder.toParameterizedQuery, hna, ppMergeAliasSet,
          ppCheckAliasConflict, List.foldlM, Bind.bind, Except.bind, pure,
          Except.pure, hn, String.append_assoc]
    obtain ⟨q, ps, g2, hstep⟩ := hstep
    obtain ⟨acc', g', hloop, hsets1, hsets2⟩ := ih
      { acc with query := acc.query ++ q, parameters := ps } g2
      (fun y hy => hall y (by simp [hy])) (by simpa using hn)
      (by simpa using hr)
    refine ⟨acc', g', ?_, by simpa using hsets1, by simpa using hsets2⟩
    have hpos : (0 : Int) < ((e :: rest).length : Int) := by
      simp
    have hdec : ((e :: rest).length : Int) - 1 = (rest.length : Int) := by
      simp only [List.length_cons]
      push_cast
      omega
    simp only [ppLoop, hpos, if_true, Bind.bind, Except.bind, hstep, hdec]
    exact hloop

/-- **C7.** Finalizing a path pattern yields the
`{aliases, query, parameters}` triple, and fails with the `AliasError`
`"At least one alias must be provided in the query"` whenever every element
of the (well-formed) chain is anonymous — ghost repair only ever adds
anonymous nodes, so the repaired chain binds no name either. -/
theorem claim7_zero_alias_failure :
    ∀ (b : PathPatternBuilder) (g : Nat),
      b.elements ≠ [] →
      b.elementCnt = b.elements.length →
      anonChain b.elements →
      trailingRepairable b →
      b.toParameterizedQuery g = .error noAliasMsg := by
  intro b g hne hwf hall hconn
  obtain ⟨b1, w, hrp, h1, h2, h3⟩ := ppRepair_props b hne hwf hall hconn
  obtain ⟨acc', g', hloop, hs1, hs2⟩ := ppLoop_anon b1.elements {} g h3
    (by simp) (by simp)
  have he : b.elements.isEmpty = false := by
    cases hb : b.elements with
    | nil => exact absurd hb hne
    | cons _ _ => rfl
  have hcore : ppFinalizeCore b g = .error noAliasMsg := by
    unfold ppFinalizeCore
    rw [← h2] at hloop
    simp [he, hrp, hloop, Bind.bind, Except.bind, hs1, hs2,
      PPLoopAcc.nodeAliasSet, PPLoopAcc.relAliasSet]
  rw [PathPatternBuilder.toParameterizedQuery, hcore]
  simp [Bind.bind, Except.bind]

/-- Witness for C7: a single anonymous node pattern `()` fails to
finalize. -/
theorem claim7_zero_alias_failure_witness :
    PathPatternBuilder.toParameterizedQuery
        { elements := [⟨.node {}, none⟩], elementCnt := 1 } 0
      = .error noAliasMsg :=
  claim7_zero_alias_failure
    { elements := [⟨.node {}, none⟩], elementCnt := 1 } 0
    (by simp) (by simp) (by intro e he; simp at he; rw [he]; rfl)
    (by
      intro e he hrel _
      simp at he
      subst he
      simp [PFrag.isRel] at hrel)

/-- `setLastNextType` replaces exactly the last element's connector. -/
theorem setLastNextType_getLast (es : List PElem) (e : PElem) (t : ConnType)
    (h : es.getLast? = some e) :
    (setLastNextType es t).getLast? = some { e with nextType := some t } := by
  induction es with
  | nil => simp at h
  | cons x rest ih =>
    cases rest with
    | nil =>
      simp at h
      subst h
      rfl
    | cons y rest' =>
      rw [List.getLast?_cons_cons] at h
      rcases hshape : setLastNextType (y :: rest') t with _ | ⟨z, zs⟩
      · have hlen := setLastNextType_length (y :: rest') t
        rw [hshape] at hlen
        simp at hlen
      · simp only [setLastNextType]
        rw [hshape, List.getLast?_cons_cons, ← hshape]
        exact ih h

/-- Ghost repair is a no-op (with no warnings) on a chain ending in a
node. -/
theorem ppRepair_node_noop (b : PathPatternBuilder) (e : PElem)
    (hl : b.elements.getLast? = some e) (hrel : e.frag.isRel = false) :
    ppRepair b = .ok (b, []) := by
  unfold ppRepair
  rw [hl]
  simp [hrel]

/-- The finalize core of a builder whose repair yields `b2` with warnings
`w` agrees with the core of `b2` itself up to those warnings. -/
theorem ppFinalizeCore_repair_relation (b1 b2 : PathPatternBuilder)
    (w : List String) (g : Nat)
    (hne1 : b1.elements ≠ []) (hne2 : b2.elements ≠ [])
    (hrp : ppRepair b1 = .ok (b2, w)) (hrp2 : ppRepair b2 = .ok (b2, [])) :
    ppFinalizeCore b1 g = (ppFinalizeCore b2 g).map
      (fun x => ({ x.1 with warnings := w }, x.2)) := by
  have he1 : b1.elements.isEmpty = false := by
    cases hb : b1.elements with
    | nil => exact absurd hb hne1
    | cons _ _ => rfl
  have he2 : b2.elements.isEmpty = false := by
    cases hb : b2.elements with
    | nil => exact absurd hb hne2
    | cons _ _ => rfl
  unfold ppFinalizeCore
  simp only [he1, he2, Bool.false_eq_true, if_false, hrp, hrp2, Bind.bind,
    Except.bind]
  rcases hlp : ppLoop b2.elements b2.elementCnt {} g with e | lr
  · simp [Except.map]
  · simp only []
    by_cases hz : (lr.1.nodeAliasSet.isEmpty && lr.1.relAliasSet.isEmpty)
      = true
    · simp [hz, Except.map]
    · simp [hz, Except.map]

/-- Finalizing a builder whose repair yields `b2` with warnings `w` agrees
with finalizing `b2` itself up to those warnings. -/
theorem toParam_repair_relation (b1 b2 : PathPatternBuilder)
    (w : List String) (g : Nat)
    (hne1 : b1.elements ≠ []) (hne2 : b2.elements ≠ [])
    (hrp : ppRepair b1 = .ok (b2, w)) (hrp2 : ppRepair b2 = .ok (b2, []))
    (hsp : b1.shortestPathOptions = b2.shortestPathOptions) :
    b1.toParameterizedQuery g = (b2.toParameterizedQuery g).map
      (fun x => ({ x.1 with warnings := w }, x.2)) := by
  rw [PathPatternBuilder.toParameterizedQuery,
    PathPatternBuilder.toParameterizedQuery,
    ppFinalizeCore_repair_relation b1 b2 w g hne1 hne2 hrp hrp2, hsp]
  rcases hc : ppFinalizeCore b2 g with e | r
  · simp [Bind.bind, Except.bind, Except.map]
  · simp only [Bind.bind, Except.bind, Except.map]
    rcases hso : b2.shortestPathOptions with _ | o
    · simp
    · rcases hw : ppShortestPathWrap o r.1.aliases r.1.query with e2 | w2
      · simp [hw]
      · simp [hw]

/-- Inversion of a successful `toRelationship` call. -/
theorem toRelationship_inv (b0 b1 : PathPatternBuilder)
    (r : RelationPatternBuilder) (hok : b0.toRelationship r = .ok b1) :
    ∃ last, b0.elements.getLast? = some last ∧
      b1 = { b0 with
              elements := setLastNextType b0.elements .toRelationship
                ++ [⟨.rel r, none⟩],
              elementCnt := b0.elementCnt + 1 } := by
  unfold PathPatternBuilder.toRelationship at hok
  split at hok
  · exact absurd hok (by simp)
  next last hl =>
    split at hok
    · exact absurd hok (by simp)
    · simp only [Except.ok.injEq] at hok
      exact ⟨last, hl, hok.symm⟩

/-- Inversion of a successful `fromRelationship` call. -/
theorem fromRelationship_inv (b0 b1 : PathPatternBuilder)
    (r : RelationPatternBuilder) (hok : b0.fromRelationship r = .ok b1) :
    ∃ last, b0.elements.getLast? = some last ∧
      b1 = { b0 with
              elements := setLastNextType b0.elements .fromRelationship
                ++ [⟨.rel r, none⟩],
              elementCnt := b0.elementCnt + 1 } := by
  unfold PathPatternBuilder.fromRelationship at hok
  split at hok
  · exact absurd hok (by simp)
  next last hl =>
    simp only [Except.ok.injEq] at hok
    exact ⟨last, hl, hok.symm⟩

/-- **C4.** Ghost-node repair runs once at finalize time: finalizing the
sole relationship `setRelationship({alias:"r"})` synthesizes anonymous
nodes on both ends, rendering `()-[r]->()` with a warning; and a chain
ending in a relationship with a predecessor finalizes exactly like the
same chain with one anonymous node appended on the trailing end — by
`toNode` when the relationship was attached with `toRelationship`, by
`fromNode` when it was attached with `fromRelationship` — plus the
dangling-relationship warning. -/
theorem claim4_ghost_node_repair :
    ((do
        let b ← PathPatternBuilder.setRelationship {} { aliasName := "r" }
        let res ← b.toParameterizedQuery 0
        pure (res.1.query, res.1.warnings) :
        Except String (String × List String))
      = .ok ("()-[r]->()", [soleRelWarn])) ∧
    (∀ (b0 : PathPatternBuilder) (r : RelationPatternBuilder)
       (b1 : PathPatternBuilder) (g : Nat),
       b0.elementCnt = b0.elements.length →
       b0.toRelationship r = .ok b1 →
       ∃ b2, b1.toNode {} = .ok b2 ∧
         b1.toParameterizedQuery g = (b2.toParameterizedQuery g).map
           (fun x => ({ x.1 with warnings := [danglingRelWarn] }, x.2))) ∧
    (∀ (b0 : PathPatternBuilder) (r : RelationPatternBuilder)
       (b1 : PathPatternBuilder) (g : Nat),
       b0.elementCnt = b0.elements.length →
       b0.fromRelationship r = .ok b1 →
       ∃ b2, b1.fromNode {} = .ok b2 ∧
         b1.toParameterizedQuery g = (b2.toParameterizedQuery g).map
           (fun x => ({ x.1 with warnings := [danglingRelWarn] }, x.2))) := by
  refine ⟨rfl, ?_, ?_⟩
  · intro b0 r b1 g hwf0 hok
    obtain ⟨last, hl, hb1⟩ := toRelationship_inv b0 b1 r hok
    subst hb1
    have hne0 : b0.elements ≠ [] := by
      intro hnil
      rw [hnil] at hl
      simp at hl
    obtain ⟨b2, hb2, hne2, hlast2, hsp2⟩ := toNode_ok_last
      { b0 with
        elements := setLastNextType b0.elements .toRelationship
          ++ [⟨.rel r, none⟩],
        elementCnt := b0.elementCnt + 1 } {} (by simp)
    refine ⟨b2, hb2, ?_⟩
    have hlen0 : 1 ≤ b0.elements.length := List.length_pos.mpr hne0
    have hcnt1 : b0.elementCnt + 1 ≠ 1 := by omega
    have hprev := setLastNextType_getLast b0.elements last .toRelationship hl
    have hrp : ppRepair
        { b0 with
          elements := setLastNextType b0.elements .toRelationship
            ++ [⟨.rel r, none⟩],
          elementCnt := b0.elementCnt + 1 }
        = .ok (b2, [danglingRelWarn]) := by
      unfold ppRepair
      rw [show ({ b0 with
            elements := setLastNextType b0.elements .toRelationship
              ++ [⟨.rel r, none⟩],
            elementCnt := b0.elementCnt + 1 } :
          PathPatternBuilder).elements.getLast?
        = some ⟨.rel r, none⟩ from by simp [List.getLast?_concat]]
      simp [PFrag.isRel, hcnt1, List.dropLast_concat, hprev, Option.bind,
        hb2, Except.map]
    exact toParam_repair_relation _ b2 [danglingRelWarn] g (by simp) hne2
      hrp (ppRepair_node_noop b2 _ hlast2 rfl) hsp2.symm
  · intro b0 r b1 g hwf0 hok
    obtain ⟨last, hl, hb1⟩ := fromRelationship_inv b0 b1 r hok
    subst hb1
    have hne0 : b0.elements ≠ [] := by
      intro hnil
      rw [hnil] at hl
      simp at hl
    obtain ⟨b2, hb2, hne2, hlast2, hsp2⟩ := fromNode_ok_last
      { b0 with
        elements := setLastNextType b0.elements .fromRelationship
          ++ [⟨.rel r, none⟩],
        elementCnt := b0.elementCnt + 1 } {} (by simp)
    refine ⟨b2, hb2, ?_⟩
    have hlen0 : 1 ≤ b0.elements.length := List.length_pos.mpr hne0
    have hcnt1 : b0.elementCnt + 1 ≠ 1 := by omega
    have hprev := setLastNextType_getLast b0.elements last .fromRelationship hl
    have hrp : ppRepair
        { b0 with
          elements := setLastNextType b0.elements .fromRelationship
            ++ [⟨.rel r, none⟩],
          elementCnt := b0.elementCnt + 1 }
        = .ok (b2, [danglingRelWarn]) := by
      unfold ppRepair
      rw [show ({ b0 with
            elements := setLastNextType b0.elements .fromRelationship
              ++ [⟨.rel r, none⟩],
            elementCnt := b0.elementCnt + 1 } :
          PathPatternBuilder).elements.getLast?
        = some ⟨.rel r, none⟩ from by simp [List.getLast?_concat]]
      simp [PFrag.isRel, hcnt1, List.dropLast_concat, hprev, Option.bind,
        hb2, Except.map]
    exact toParam_repair_relation _ b2 [danglingRelWarn] g (by simp) hne2
      hrp (ppRepair_node_noop b2 _ hlast2 rfl) hsp2.symm

/-- Witness for C4: `(n)-[r]` finalizes to `(n)-[r]->()` with the
dangling-relationship warning, matching the same chain with the anonymous
node appended explicitly. -/
theorem claim4_ghost_node_repair_witness :
    ∃ b2, PathPatternBuilder.toNode
        { elements := [⟨.node { aliasName := "n" }, some .toRelationship⟩,
                       ⟨.rel { aliasName := "r" }, none⟩],
          elementCnt := 2 } {}
      = .ok b2 ∧
    PathPatternBuilder.toParameterizedQuery
        { elements := [⟨.node { aliasName := "n" }, some .toRelationship⟩,
                       ⟨.rel { aliasName := "r" }, none⟩],
          elementCnt := 2 } 0
      = (b2.toParameterizedQuery 0).map
          (fun x => ({ x.1 with warnings := [danglingRelWarn] }, x.2)) :=
  claim4_ghost_node_repair.2.1
    { elements := [⟨.node { aliasName := "n" }, none⟩], elementCnt := 1 }
    { aliasName := "r" }
    { elements := [⟨.node { aliasName := "n" }, some .toRelationship⟩,
                   ⟨.rel { aliasName := "r" }, none⟩],
      elementCnt := 2 } 0 (by decide) rfl

/-- The ten clause positions of the assembler. -/
inductive ClauseKind where
  | matchK
  | optionalMatchK
  | mergeK
  | createK
  | whereK
  | orderByK
  | skipK
  | limitK
  | offsetK
  | returnFinishK
  deriving Repr, DecidableEq

/-- The fixed assembly order the spec claims:
`MATCH, OPTIONAL MATCH, MERGE, CREATE, WHERE, ORDER BY, SKIP, LIMIT,
OFFSET, RETURN|FINISH`. -/
def assemblyOrder : List ClauseKind :=
  [.matchK, .optionalMatchK, .mergeK, .createK, .whereK, .orderByK, .skipK,
   .limitK, .offsetK, .returnFinishK]

/-- The assembler's processing step for one clause position. -/
def stepOf (qb : QueryBuilder) (k : ClauseKind) (st : QueryContext × Nat) :
    Except String (QueryContext × Nat) :=
  match k with
  | .matchK => stepSelective qb.matchC st
  | .optionalMatchK => stepSelective qb.optionalMatchC st
  | .mergeK => stepSelective qb.mergeC st
  | .createK => stepSelective qb.createC st
  | .whereK => stepWhere qb.whereC st
  | .orderByK => stepOrderBy qb.orderByC st
  | .skipK => stepScalar "SKIP" qb.skipC st
  | .limitK => stepScalar "LIMIT" qb.limitC st
  | .offsetK => stepScalar "OFFSET" qb.offsetC st
  | .returnFinishK => stepReturnFinish qb.returnC qb.finishC st

/-- Whether a clause position is occupied in the builder. -/
def clausePresent (qb : QueryBuilder) : ClauseKind → Bool
  | .matchK => qb.matchC.isSome
  | .optionalMatchK => qb.optionalMatchC.isSome
  | .mergeK => qb.mergeC.isSome
  | .createK => qb.createC.isSome
  | .whereK => qb.whereC.isSome
  | .orderByK => qb.orderByC.isSome
  | .skipK => qb.skipC.isSome
  | .limitK => qb.limitC.isSome
  | .offsetK => qb.offsetC.isSome
  | .returnFinishK => qb.returnC.isSome || qb.finishC

/-- **C3.** `toParameterizedQuery()` is exactly the left fold of the
per-clause steps over the fixed order `MATCH, OPTIONAL MATCH, MERGE,
CREATE, WHERE, ORDER BY, SKIP, LIMIT, OFFSET, RETURN|FINISH`; each step
appends nothing when its clause is absent and `<clause text>\n` when
present (so the emitted query is the present clauses newline-joined in that
order); and when both a RETURN and a FINISH component are present the final
step — and with it the whole call — throws the
`ClauseError`. -/
theorem claim3_fixed_assembly_order :
    (∀ (qb : QueryBuilder) (g : Nat),
       qb.toParameterizedQuery g
         = assemblyOrder.foldlM (fun st k => stepOf qb k st) ({}, g)) ∧
    (∀ (k : ClauseKind) (qb : QueryBuilder) (st st' : QueryContext × Nat),
       stepOf qb k st = .ok st' →
       ∃ t, st'.1.query = st.1.query ++ t ∧
         (clausePresent qb k = false → t = "") ∧
         (clausePresent qb k = true → ∃ s, t = s ++ "\n")) ∧
    (∀ (qb : QueryBuilder) (g : Nat),
       qb.returnC.isSome → qb.finishC = true →
       (∀ st, stepReturnFinish qb.returnC qb.finishC st
          = .error returnFinishMsg) ∧
       ∃ m, qb.toParameterizedQuery g = .error m) := by
  refine ⟨?_, ?_, ?_⟩
  · intro qb g
    simp only [QueryBuilder.toParameterizedQuery, assemblyOrder,
      List.foldlM, stepOf, bind_pure]
  · intro k qb st st' h
    cases k with
    | matchK =>
      simp only [stepOf] at h
      unfold stepSelective at h
      split at h
      next hc =>
        simp only [Except.ok.injEq] at h
        exact ⟨"", by simp [← h], by simp, by simp [clausePresent, hc]⟩
      next c hc =>
        rcases hr : c.toParameterizedQuery st.2 with e | r
        · rw [hr] at h
          simp [Bind.bind, Except.bind] at h
        · rw [hr] at h
          simp only [Bind.bind, Except.bind, Except.ok.injEq] at h
          exact ⟨r.2.1 ++ "\n", by simp [← h, appendSelective,
            String.append_assoc], by simp [clausePresent, hc],
            fun _ => ⟨r.2.1, rfl⟩⟩
    | optionalMatchK =>
      simp only [stepOf] at h
      unfold stepSelective at h
      split at h
      next hc =>
        simp only [Except.ok.injEq] at h
        exact ⟨"", by simp [← h], by simp, by simp [clausePresent, hc]⟩
      next c hc =>
        rcases hr : c.toParameterizedQuery st.2 with e | r
        · rw [hr] at h
          simp [Bind.bind, Except.bind] at h
        · rw [hr] at h
          simp only [Bind.bind, Except.bind, Except.ok.injEq] at h
          exact ⟨r.2.1 ++ "\n", by simp [← h, appendSelective,
            String.append_assoc], by simp [clausePresent, hc],
            fun _ => ⟨r.2.1, rfl⟩⟩
    | mergeK =>
      simp only [stepOf] at h
      unfold stepSelective at h
      split at h
      next hc =>
        simp only [Except.ok.injEq] at h
        exact ⟨"", by simp [← h], by simp, by simp [clausePresent, hc]⟩
      next c hc =>
        rcases hr : c.toParameterizedQuery st.2 with e | r
        · rw [hr] at h
          simp [Bind.bind, Except.bind] at h
        · rw [hr] at h
          simp only [Bind.bind, Except.bind, Except.ok.injEq] at h
          exact ⟨r.2.1 ++ "\n", by simp [← h, appendSelective,
            String.append_assoc], by simp [clausePresent, hc],
            fun _ => ⟨r.2.1, rfl⟩⟩
    | createK =>
      simp only [stepOf] at h
      unfold stepSelective at h
      split at h
      next hc =>
        simp only [Except.ok.injEq] at h
        exact ⟨"", by simp [← h], by simp, by simp [clausePresent, hc]⟩
      next c hc =>
        rcases hr : c.toParameterizedQuery st.2 with e | r
        · rw [hr] at h
          simp [Bind.bind, Except.bind] at h
        · rw [hr] at h
          simp only [Bind.bind, Except.bind, Except.ok.injEq] at h
          exact ⟨r.2.1 ++ "\n", by simp [← h, appendSelective,
            String.append_assoc], by simp [clausePresent, hc],
            fun _ => ⟨r.2.1, rfl⟩⟩
    | whereK =>
      simp only [stepOf] at h
      unfold stepWhere at h
      split at h
      next hc =>
        simp only [Except.ok.injEq] at h
        exact ⟨"", by simp [← h], by simp, by simp [clausePresent, hc]⟩
      next c hc =>
        rcases hr : (c.setAliasList st.1.aliasSet).toParameterizedQuery
            with e | r
        · rw [hr] at h
          simp [Bind.bind, Except.bind] at h
        · rw [hr] at h
          simp only [Bind.bind, Except.bind, Except.ok.injEq] at h
          exact ⟨r.1 ++ "\n", by simp [← h, appendDependent,
            String.append_assoc], by simp [clausePresent, hc],
            fun _ => ⟨r.1, rfl⟩⟩
    | orderByK =>
      simp only [stepOf] at h
      unfold stepOrderBy at h
      split at h
      next hc =>
        simp only [Except.ok.injEq] at h
        exact ⟨"", by simp [← h], by simp, by simp [clausePresent, hc]⟩
      next c hc =>
        rcases hr : (c.setAliasList st.1.aliasSet).toParameterizedQuery
            with e | r
        · rw [hr] at h
          simp [Bind.bind, Except.bind] at h
        · rw [hr] at h
          simp only [Bind.bind, Except.bind, Except.ok.injEq] at h
          exact ⟨r.1 ++ "\n", by simp [← h, appendDependent,
            String.append_assoc], by simp [clausePresent, hc],
            fun _ => ⟨r.1, rfl⟩⟩
    | skipK =>
      simp only [stepOf] at h
      unfold stepScalar at h
      split at h
      next hc =>
        simp only [Except.ok.injEq] at h
        exact ⟨"", by simp [← h], by simp, by simp [clausePresent, hc]⟩
      next n hn =>
        simp only [Except.ok.injEq] at h
        exact ⟨"SKIP " ++ toString n ++ "\n",
          by simp [← h, String.append_assoc],
          by simp [clausePresent, hn],
          fun _ => ⟨"SKIP " ++ toString n, by simp [String.append_assoc]⟩⟩
    | limitK =>
      simp only [stepOf] at h
      unfold stepScalar at h
      split at h
      next hc =>
        simp only [Except.ok.injEq] at h
        exact ⟨"", by simp [← h], by simp, by simp [clausePresent, hc]⟩
      next n hn =>
        simp only [Except.ok.injEq] at h
        exact ⟨"LIMIT " ++ toString n ++ "\n",
          by simp [← h, String.append_assoc],
          by simp [clausePresent, hn],
          fun _ => ⟨"LIMIT " ++ toString n, by simp [String.append_assoc]⟩⟩
    | offsetK =>
      simp only [stepOf] at h
      unfold stepScalar at h
      split at h
      next hc =>
        simp only [Except.ok.injEq] at h
        exact ⟨"", by simp [← h], by simp, by simp [clausePresent, hc]⟩
      next n hn =>
        simp only [Except.ok.injEq] at h
        exact ⟨"OFFSET " ++ toString n ++ "\n",
          by simp [← h, String.append_assoc],
          by simp [clausePresent, hn],
          fun _ => ⟨"OFFSET " ++ toString n, by simp [String.append_assoc]⟩⟩
    | returnFinishK =>
      simp only [stepOf] at h
      unfold stepReturnFinish at h
      by_cases hboth : (qb.returnC.isSome && qb.finishC) = true
      · simp [hboth, Bind.bind, Except.bind] at h
      · simp only [hboth, Bool.false_eq_true, if_false] at h
        rcases hret : qb.returnC with _ | rc
        · rw [hret] at h
          cases hfin : qb.finishC with
          | true =>
            rw [hfin] at h
            simp [Bind.bind, Except.bind, pure, Except.pure] at h
            exact ⟨"FINISH\n", by simp [← h],
              by simp [clausePresent, hret, hfin],
              fun _ => ⟨"FINISH", rfl⟩⟩
          | false =>
            rw [hfin] at h
            simp [Bind.bind, Except.bind, pure, Except.pure] at h
            exact ⟨"", by simp [← h], by simp,
              by simp [clausePresent, hret, hfin]⟩
        · simp only [hret] at h
          have hfin : qb.finishC = false := by
            rcases hf : qb.finishC
            · rfl
            · rw [hret, hf] at hboth
              simp at hboth
          rcases hr : (rc.setAliasList st.1.aliasSet).toParameterizedQuery
              with e | r
          · rw [hr] at h
            simp [Bind.bind, Except.bind] at h
          · rw [hr] at h
            simp [Bind.bind, Except.bind, pure, Except.pure, hfin] at h
            exact ⟨r.1 ++ "\n", by simp [← h, appendDependent,
              String.append_assoc], by simp [clausePresent, hret],
              fun _ => ⟨r.1, rfl⟩⟩
  · intro qb g hret hfin
    have hstep : ∀ st, stepReturnFinish qb.returnC qb.finishC st
        = .error returnFinishMsg := by
      intro st
      unfold stepReturnFinish
      have : (qb.returnC.isSome && qb.finishC) = true := by
        simp [hret, hfin]
      simp [this, Bind.bind, Except.bind]
    refine ⟨hstep, ?_⟩
    unfold QueryBuilder.toParameterizedQuery
    rcases h1 : stepSelective qb.matchC ({}, g) with e | s1
    · exact ⟨e, by simp [h1, Bind.bind, Except.bind]⟩
    rcases h2 : stepSelective qb.optionalMatchC s1 with e | s2
    · exact ⟨e, by simp [h1, h2, Bind.bind, Except.bind]⟩
    rcases h3 : stepSelective qb.mergeC s2 with e | s3
    · exact ⟨e, by simp [h1, h2, h3, Bind.bind, Except.bind]⟩
    rcases h4 : stepSelective qb.createC s3 with e | s4
    · exact ⟨e, by simp [h1, h2, h3, h4, Bind.bind, Except.bind]⟩
    rcases h5 : stepWhere qb.whereC s4 with e | s5
    · exact ⟨e, by simp [h1, h2, h3, h4, h5, Bind.bind, Except.bind]⟩
    rcases h6 : stepOrderBy qb.orderByC s5 with e | s6
    · exact ⟨e, by simp [h1, h2, h3, h4, h5, h6, Bind.bind, Except.bind]⟩
    rcases h7 : stepScalar "SKIP" qb.skipC s6 with e | s7
    · exact ⟨e, by simp [h1, h2, h3, h4, h5, h6, h7, Bind.bind, Except.bind]⟩
    rcases h8 : stepScalar "LIMIT" qb.limitC s7 with e | s8
    · exact ⟨e, by simp [h1, h2, h3, h4, h5, h6, h7, h8, Bind.bind,
        Except.bind]⟩
    rcases h9 : stepScalar "OFFSET" qb.offsetC s8 with e | s9
    · exact ⟨e, by simp [h1, h2, h3, h4, h5, h6, h7, h8, h9, Bind.bind,
        Except.bind]⟩
    exact ⟨returnFinishMsg, by simp [h1, h2, h3, h4, h5, h6, h7, h8, h9,
      hstep s9, Bind.bind, Except.bind]⟩

/-- Witness for C3: the step-shape part applied to a concrete SKIP slot,
and the RETURN/FINISH exclusivity applied to a builder holding both. -/
theorem claim3_fixed_assembly_order_witness :
    (∃ t, ("SKIP 5\n" : String) = "" ++ t ∧
      (clausePresent { skipC := some 5 } .skipK = false → t = "") ∧
      (clausePresent { skipC := some 5 } .skipK = true →
        ∃ s, t = s ++ "\n")) ∧
    ∃ m, QueryBuilder.toParameterizedQuery
        { returnC := some { returnStatements := ["*"] }, finishC := true } 0
      = .error m := by
  constructor
  · have h := claim3_fixed_assembly_order.2.1 .skipK { skipC := some 5 }
      ({}, 0) ({ query := "SKIP 5\n" }, 0) rfl
    simpa using h
  · exact (claim3_fixed_assembly_order.2.2
      { returnC := some { returnStatements := ["*"] }, finishC := true } 0
      rfl rfl).2

end Neo4jToolkit
